import Mathlib

/-!
Verification of the deterministic simulation core of the multiplayer snake
game (server `src/shared/step.ts`, `src/shared/hash.ts` as shipped inside
`rebuild-client.sh`, and `src/room.ts`).

The JavaScript `Map<string, Snake>` iterates its entries in insertion order;
it is embedded as an association list `List (String × Snake)` whose order is
that insertion order.  All mutation-heavy loops of the source become folds
that thread the whole game state, mirroring the source's statement order.
-/

namespace SnakeGame

/-- Grid direction, `shared/types.ts` (`'up' | 'down' | 'left' | 'right'`). -/
inductive Direction where
  | up
  | down
  | left
  | right
deriving DecidableEq, Repr

/-- The `OPPOSITE_DIRECTIONS` record of `shared/constants.ts`. -/
def Direction.opposite : Direction → Direction
  | .up => .down
  | .down => .up
  | .left => .right
  | .right => .left

/-- Integer grid coordinate, `shared/types.ts` (`Position`). -/
structure Position where
  x : Int
  y : Int
deriving DecidableEq, Repr

instance : Inhabited Position := ⟨⟨0, 0⟩⟩

/-- Snake record, `shared/types.ts`.  (The optional `nextDirection` field is
never read or written by the server code modelled here and is omitted.) -/
structure Snake where
  id : String
  body : List Position
  direction : Direction
  alive : Bool
  score : Nat
  color : String
deriving DecidableEq, Repr

/-- Food kind, the `type` field of `Food` in `shared/types.ts`. -/
inductive FoodKind where
  | normal
  | special
deriving DecidableEq, Repr

/-- Food record, `shared/types.ts`. -/
structure Food where
  position : Position
  type : FoodKind
  value : Nat
deriving DecidableEq, Repr

/-- Projectile record (extended mode), fields as used by
`src/server/src/shared/step.ts` lines 129-183. -/
structure Projectile where
  position : Position
  direction : Direction
  ownerId : String
  lifetime : Int
deriving DecidableEq, Repr

/-- Event kind, `shared/types.ts` (`'eat' | 'death' | 'spawn'`) plus the
`'hit'` events pushed by the projectile code of the server step. -/
inductive EventType where
  | eat
  | death
  | spawn
  | hit
deriving DecidableEq, Repr

/-- The `data` payload attached to some events. -/
inductive EventData where
  | eatValue (value : Nat)
  | spawnKind (kind : FoodKind)
  | hitDamage (damage : Nat)
deriving DecidableEq, Repr

/-- Game event, `shared/types.ts` (`GameEvent`). -/
structure GameEvent where
  type : EventType
  playerId : Option String
  position : Option Position
  data : Option EventData
deriving DecidableEq, Repr

/-- Room settings, `shared/types.ts` (`RoomSettings`).  The special-food
probability is a rational in `[0,1)`, compared against the RNG output. -/
structure RoomSettings where
  gridWidth : Nat
  gridHeight : Nat
  wrapEnabled : Bool
  tickRate : Nat
  maxPlayers : Nat
  foodCount : Nat
  specialFoodChance : ℚ
deriving DecidableEq, Repr

/-- Aggregate simulation state, `shared/types.ts` (`GameState`).  The snake
map is an association list in insertion order. -/
structure GameState where
  snakes : List (String × Snake)
  foods : List Food
  projectiles : List Projectile
  events : List GameEvent
deriving DecidableEq, Repr

/-- Constants from `shared/constants.ts`. -/
def NORMAL_FOOD_VALUE : Nat := 1

def SPECIAL_FOOD_VALUE : Nat := 3

def PROJECTILE_SPEED : Nat := 2

def PROJECTILE_DAMAGE : Nat := 2

def INITIAL_SNAKE_LENGTH : Nat := 3

/-- Modelled from the spec: the repository imports `shared/rng.ts`
(`class RNG`, `createSeed`) from `room.ts`, `step.ts` and the tests, but
that file is not part of the sources available here.  Per spec §4.2 the RNG
is a deterministic pseudo-random sequence keyed by an integer seed
("a linear congruential or xorshift-style generator is appropriate"),
exposing `next() -> float in [0,1)` and `choice(sequence) -> element`, both
advancing the internal state.  It is modelled as a 32-bit linear
congruential generator over `Nat`; `next` returns the scaled state as a
rational in `[0,1)` and `choice` indexes the list by the raw draw reduced
modulo the length. -/
structure RNG where
  state : Nat
deriving DecidableEq, Repr

/-- Modelled from the spec: constructing an `RNG` from an integer seed. -/
def mkRNG (seed : Nat) : RNG := ⟨seed % 2 ^ 32⟩

/-- Modelled from the spec: one raw 32-bit draw of the generator. -/
def RNG.nextNat (r : RNG) : Nat × RNG :=
  let s := (1664525 * r.state + 1013904223) % 2 ^ 32
  (s, ⟨s⟩)

/-- Modelled from the spec: `next() -> float in [0,1)`. -/
def RNG.next (r : RNG) : ℚ × RNG :=
  let p := r.nextNat
  ((p.1 : ℚ) / 2 ^ 32, p.2)

/-- Modelled from the spec: `choice(sequence) -> element`, deterministic in
the internal state; returns `none` exactly on the empty sequence. -/
def RNG.choice {α : Type} (r : RNG) (l : List α) : Option α × RNG :=
  let p := r.nextNat
  (l.get? (p.1 % l.length), p.2)

/-- Input map, `step.ts` (`InputMap`): at most one direction per player id. -/
def InputMap : Type := String → Option Direction

/-- Boost map, `step.ts` (`BoostMap`). -/
def BoostMap : Type := String → Bool

/-- The absent boost map: `room.ts` invokes `step` without a `boostMap`
argument, so no snake boosts. -/
def noBoosts : BoostMap := fun _ => false

/-- Lookup in the snake association list (JS `Map.get`: the unique entry for
a key; on lists with duplicated keys this returns the first one). -/
def lget : List (String × Snake) → String → Option Snake
  | [], _ => none
  | (k, v) :: rest, id => if k = id then some v else lget rest id

/-- In-place update of one snake of the map, leaving the key order unchanged
(the JS code mutates the `Snake` object held by the map). -/
def updateSnake (id : String) (f : Snake → Snake) (l : List (String × Snake)) :
    List (String × Snake) :=
  l.map fun e => if e.1 = id then (e.1, f e.2) else e

/-- Horizontal offset of the `switch` in `movePosition`. -/
def dirDX : Direction → Int
  | .left => -1
  | .right => 1
  | _ => 0

/-- Vertical offset of the `switch` in `movePosition`. -/
def dirDY : Direction → Int
  | .up => -1
  | .down => 1
  | _ => 0

/-- The head-offset plus wrap logic, `step.ts` lines 209-234
(`movePosition`).  JS `%` is the truncating remainder, `Int.tmod`. -/
def movePosition (pos : Position) (dir : Direction) (settings : RoomSettings) : Position :=
  let x := pos.x + dirDX dir
  let y := pos.y + dirDY dir
  if settings.wrapEnabled then
    ⟨Int.tmod (x + settings.gridWidth) settings.gridWidth,
     Int.tmod (y + settings.gridHeight) settings.gridHeight⟩
  else
    ⟨x, y⟩

/-- The out-of-grid test of `step.ts` lines 59-60 and 141-142. -/
def outOfBoundsPos (p : Position) (settings : RoomSettings) : Bool :=
  p.x < 0 || (settings.gridWidth : Int) ≤ p.x || p.y < 0 || (settings.gridHeight : Int) ≤ p.y

/-- The death event pushed by `killSnake`. -/
def deathEvent (id : String) (pos : Position) : GameEvent :=
  ⟨.death, some id, some pos, none⟩

/-- One tail-segment conversion of `killSnake`: the segment becomes a normal
food unless its cell is held by a living snake or a food already in the
list. -/
def convertSegment (snakes1 : List (String × Snake)) (fs : List Food)
    (seg : Position) : List Food :=
  let blocked := snakes1.any fun e => e.2.alive && decide (seg ∈ e.2.body)
  if !blocked && !(fs.any fun f => decide (f.position = seg)) then
    fs ++ [⟨seg, .normal, NORMAL_FOOD_VALUE⟩]
  else fs

/-- Death handling, `step.ts` lines 236-267 (`killSnake`).  The snake is
marked dead, one death event is pushed at its current head, and
`min(3, ⌊len/2⌋)` trailing segments are converted to normal food, skipping
positions occupied by a living snake or by food already present at that
point of the fold.  (JS `slice(-0)` returns the whole array, hence the
`k = 0` case.) -/
def killSnake (st : GameState) (id : String) : GameState :=
  match lget st.snakes id with
  | none => st
  | some sn =>
    let snakes1 := updateSnake id (fun s => { s with alive := false }) st.snakes
    let events1 := st.events ++ [deathEvent id sn.body.headI]
    let k := min 3 (sn.body.length / 2)
    let segs := if k = 0 then sn.body else sn.body.drop (sn.body.length - k)
    let foods1 := segs.foldl (convertSegment snakes1) st.foods
    { st with snakes := snakes1, foods := foods1, events := events1 }

/-- Direction update for one snake, `step.ts` lines 38-42: an input is
adopted unless it is the exact opposite of the current direction. -/
def applyInput (inputs : InputMap) (id : String) (sn : Snake) : Snake :=
  match inputs id with
  | some d => if d = sn.direction.opposite then sn else { sn with direction := d }
  | none => sn

/-- Phase 1 of `step`, lines 30-45: copy every snake into the new map (in
iteration order), applying valid inputs to the living ones. -/
def dirPhase (inputs : InputMap) (snakes : List (String × Snake)) :
    List (String × Snake) :=
  snakes.map fun e => if e.2.alive then (e.1, applyInput inputs e.1 e.2) else e

/-- The eat event pushed when a moving head matches a food cell. -/
def eatEvent (id : String) (f : Food) : GameEvent :=
  ⟨.eat, some id, some f.position, some (.eatValue f.value)⟩

/-- One movement of one snake, `step.ts` lines 54-98: wall death (wrap
disabled) aborts the move; otherwise the new head is prepended, every food
at the new head is removed (pushing one eat event each, scoring the last
matching one), and the snake grows by `value - 1` duplicated tail segments
or drops its tail.  The returned flag reports the wall death (the `break`). -/
def moveSnakeOnce (settings : RoomSettings) (id : String) (st : GameState) :
    GameState × Bool :=
  match lget st.snakes id with
  | none => (st, true)
  | some sn =>
    let newHead := movePosition sn.body.headI sn.direction settings
    if !settings.wrapEnabled && outOfBoundsPos newHead settings then
      (killSnake st id, true)
    else
      let eaten := st.foods.filter fun f => decide (f.position = newHead)
      let foods1 := st.foods.filter fun f => !decide (f.position = newHead)
      let events1 := st.events ++ eaten.map (eatEvent id)
      let body1 := newHead :: sn.body
      let snakes1 :=
        if eaten.isEmpty then
          updateSnake id (fun s => { s with body := body1.dropLast }) st.snakes
        else
          let v := ((eaten.getLast?).map Food.value).getD 0
          updateSnake id (fun s =>
            { s with body := body1 ++ List.replicate (v - 1) (body1.getLastD default),
                     score := s.score + v }) st.snakes
      ({ st with snakes := snakes1, foods := foods1, events := events1 }, false)

/-- Movement of one snake including boost, `step.ts` lines 51-53: a boosted
snake moves twice unless the first move killed it at a wall. -/
def moveSnake (settings : RoomSettings) (boosts : BoostMap) (id : String)
    (st : GameState) : GameState :=
  let r1 := moveSnakeOnce settings id st
  if boosts id && !r1.2 then (moveSnakeOnce settings id r1.1).1 else r1.1

/-- One iteration of the movement `forEach`: dead snakes are skipped. -/
def moveStep (settings : RoomSettings) (boosts : BoostMap) (acc : GameState)
    (id : String) : GameState :=
  match lget acc.snakes id with
  | some sn => if sn.alive then moveSnake settings boosts id acc else acc
  | none => acc

/-- Phase 2 of `step`, lines 47-100: move every living snake, in map order. -/
def movePhase (settings : RoomSettings) (boosts : BoostMap) (st : GameState) :
    GameState :=
  (st.snakes.map Prod.fst).foldl (moveStep settings boosts) st

/-- One iteration of the inner `forEach` of the collision phase: the
processed snake `id` is killed when the *currently living* other snake
`oid` has a segment under `id`'s head. -/
def collideOtherStep (id : String) (hd : Position) (acc : GameState)
    (oid : String) : GameState :=
  if oid = id then acc
  else
    match lget acc.snakes oid with
    | some osn => if osn.alive && decide (hd ∈ osn.body) then killSnake acc id else acc
    | none => acc

/-- Inner loop of the collision phase, `step.ts` lines 117-126: scanning the
other snakes in map order, the processed snake is killed once for each
*currently living* other snake that has a segment under its head. -/
def collideOthers (id : String) (hd : Position) (st : GameState) : GameState :=
  (st.snakes.map Prod.fst).foldl (collideOtherStep id hd) st

/-- Collision resolution for one snake, `step.ts` lines 103-127: dead snakes
are skipped; a self collision kills and returns; otherwise the other snakes
are scanned. -/
def collideSnake (st : GameState) (id : String) : GameState :=
  match lget st.snakes id with
  | none => st
  | some sn =>
    if !sn.alive then st
    else
      let hd := sn.body.headI
      if decide (hd ∈ sn.body.tail) then killSnake st id
      else collideOthers id hd st

/-- Phase 3 of `step`, lines 102-127: resolve collisions for every snake in
map order, against the evolving post-movement state. -/
def collisionPhase (st : GameState) : GameState :=
  (st.snakes.map Prod.fst).foldl collideSnake st

/-- The hit event pushed by the projectile code. -/
def hitEvent (id : String) (pos : Position) (dmg : Nat) : GameEvent :=
  ⟨.hit, some id, some pos, some (.hitDamage dmg)⟩

/-- Projectile impact scan, `step.ts` lines 147-179: every living non-owner
snake with a segment at the projectile position takes damage (the JS
`forEach` keeps scanning the remaining snakes even after a hit): two tail
segments are popped, or the snake is killed when that would exhaust its
body.  Returns the updated state and the hit flag. -/
def projectileHitSnake (pos : Position) (ownerId : String)
    (acc : GameState × Bool) (sid : String) : GameState × Bool :=
  match lget acc.1.snakes sid with
  | some sn =>
    if sn.alive && decide (sid ≠ ownerId) && decide (pos ∈ sn.body) then
      let n := sn.body.length
      let dmg := min PROJECTILE_DAMAGE (n - 1)
      let st1 :=
        if n - 1 ≤ dmg then killSnake acc.1 sid
        else { acc.1 with
                 snakes := updateSnake sid (fun s => { s with body := s.body.take (n - dmg) }) acc.1.snakes }
      ({ st1 with events := st1.events ++ [hitEvent sid pos dmg] }, true)
    else acc
  | none => acc

/-- Full impact scan of one projectile over the snake map. -/
def projectileHit (pos : Position) (ownerId : String) (st : GameState) :
    GameState × Bool :=
  (st.snakes.map Prod.fst).foldl (projectileHitSnake pos ownerId) (st, false)

/-- Update of a single projectile inside the filter of `step.ts` lines
130-183: advance it `PROJECTILE_SPEED` cells, decrement its lifetime, drop
it outside the grid (wrap disabled), otherwise resolve impacts; it is kept
only if it hit nothing and its lifetime is still positive. -/
def stepProjectile (settings : RoomSettings) (acc : GameState × List Projectile)
    (p : Projectile) : GameState × List Projectile :=
  let pos2 := (List.range PROJECTILE_SPEED).foldl
    (fun q _ => movePosition q p.direction settings) p.position
  let p1 : Projectile := { p with position := pos2, lifetime := p.lifetime - 1 }
  if !settings.wrapEnabled && outOfBoundsPos pos2 settings then acc
  else
    let r := projectileHit pos2 p.ownerId acc.1
    (r.1, if !r.2 && decide (0 < p1.lifetime) then acc.2 ++ [p1] else acc.2)

/-- Phase 4 of `step`, lines 129-183: the projectile filter. -/
def projectilePhase (settings : RoomSettings) (st : GameState) : GameState :=
  let r := st.projectiles.foldl (stepProjectile settings) (st, [])
  { r.1 with projectiles := r.2 }

/-- Occupancy test of `findEmptyPosition`, `step.ts` lines 269-298: living
snake segments, foods and projectiles occupy cells. -/
def isOccupied (st : GameState) (p : Position) : Bool :=
  (st.snakes.any fun e => e.2.alive && decide (p ∈ e.2.body)) ||
  (st.foods.any fun f => decide (f.position = p)) ||
  (st.projectiles.any fun pr => decide (pr.position = p))

/-- The empty cells of the grid, in the `x`-outer `y`-inner order the source
builds them. -/
def emptyPositions (st : GameState) (settings : RoomSettings) : List Position :=
  (List.range settings.gridWidth).flatMap fun x =>
    (List.range settings.gridHeight).filterMap fun y =>
      let p : Position := ⟨(x : Int), (y : Int)⟩
      if isOccupied st p then none else some p

/-- Random empty cell, `step.ts` lines 269-302 (`findEmptyPosition`): `none`
without consuming the RNG when no cell is empty, otherwise an RNG choice. -/
def findEmptyPosition (st : GameState) (settings : RoomSettings) (rng : RNG) :
    Option Position × RNG :=
  let empty := emptyPositions st settings
  if empty.isEmpty then (none, rng)
  else
    let c := rng.choice empty
    (c.1, c.2)

/-- The spawn event pushed with each spawned food. -/
def spawnEvent (pos : Position) (special : Bool) : GameEvent :=
  ⟨.spawn, none, some pos, some (.spawnKind (if special then .special else .normal))⟩

/-- One-food-per-iteration body of the replenishment `while` loop of
`step.ts` lines 185-204, with the iteration count made explicit: every
iteration either inserts exactly one food (special with probability
`specialFoodChance`) or stops the loop (food count at target, or no empty
cell left). -/
def spawnFoodsAux (settings : RoomSettings) (fuel : Nat) (st : GameState)
    (rng : RNG) : GameState × RNG :=
  match fuel with
  | 0 => (st, rng)
  | fuel + 1 =>
    if st.foods.length < settings.foodCount then
      match findEmptyPosition st settings rng with
      | (some pos, rng1) =>
        let r2 := rng1.next
        let isSpecial := decide (r2.1 < settings.specialFoodChance)
        let food : Food := ⟨pos, if isSpecial then .special else .normal,
          if isSpecial then SPECIAL_FOOD_VALUE else NORMAL_FOOD_VALUE⟩
        spawnFoodsAux settings fuel
          { st with foods := st.foods ++ [food],
                    events := st.events ++ [spawnEvent pos isSpecial] } r2.2
      | (none, _) => (st, rng)
    else (st, rng)

/-- Phase 5 of `step`, lines 185-204: while the food count is below the
target, place one food at a random empty cell, stopping early when no empty
cell is left.  Each pass of the loop grows the food list by one, so the
loop makes at most `foodCount - foods.length` passes — exactly the fuel
supplied here. -/
def spawnFoods (settings : RoomSettings) (st : GameState) (rng : RNG) :
    GameState × RNG :=
  spawnFoodsAux settings (settings.foodCount - st.foods.length) st rng

/-- The fresh state built at the top of `step` (lines 22-45): snakes copied
by the direction phase, foods and projectiles (shallow-)copied from the
input, and an empty event list. -/
def preMoveState (state : GameState) (inputs : InputMap) : GameState :=
  { snakes := dirPhase inputs state.snakes,
    foods := state.foods,
    projectiles := state.projectiles,
    events := [] }

/-- The post-movement intermediate state of a tick (after phases 1 and 2,
before collision resolution). -/
def postMoveState (state : GameState) (inputs : InputMap)
    (settings : RoomSettings) (boosts : BoostMap) : GameState :=
  movePhase settings boosts (preMoveState state inputs)

/-- The deterministic step function, `step.ts` lines 15-207, as the
composition of its five phases. -/
def step (state : GameState) (inputs : InputMap) (settings : RoomSettings)
    (rng : RNG) (boosts : BoostMap) : GameState × RNG :=
  spawnFoods settings
    (projectilePhase settings (collisionPhase (postMoveState state inputs settings boosts)))
    rng

/-- Stepping a whole sequence of ticks: each tick consumes one input map and
threads the RNG, exactly as the server loop and the client reconciliation
replay do. -/
def runSteps (settings : RoomSettings) : GameState × RNG → List InputMap → GameState × RNG
  | sr, [] => sr
  | sr, i :: rest => runSteps settings (step sr.1 i settings sr.2 noBoosts) rest

/-- The word the source serializes for a direction. -/
def dirName : Direction → String
  | .up => "up"
  | .down => "down"
  | .left => "left"
  | .right => "right"

/-- Coordinate serialization used by the hasher. -/
def posStr (p : Position) : String := toString p.x ++ "," ++ toString p.y

/-- The word the source serializes for a food kind. -/
def foodKindName : FoodKind → String
  | .normal => "normal"
  | .special => "special"

/-- Reduction of an integer to a signed 32-bit value, the effect of JS
`| 0`-style coercions (`hash & hash`, `<<`). -/
def toInt32 (z : Int) : Int := (z + 2 ^ 31) % 2 ^ 32 - 2 ^ 31

/-- The string hash of `hash.ts` (`simpleHash`): the JS loop computes
`hash = (hash << 5) - hash + charCode` with 32-bit signed wrap-around, then
prints the absolute value in hex padded to 8 digits. -/
def simpleHash (s : String) : String :=
  let h := s.toList.foldl (fun h c => toInt32 (toInt32 (h * 32) - h + (c.toNat : Int))) 0
  let hex := Nat.toDigits 16 h.natAbs
  String.mk (List.replicate (8 - hex.length) '0') ++ String.mk hex

/-- Ordering of snakes in the hasher: `sort((a, b) => a.id.localeCompare(b.id))`,
modelled as the lexicographic string order. -/
def snakeIdLe (a b : Snake) : Prop := a.id ≤ b.id

instance : DecidableRel snakeIdLe := fun a b => by
  unfold snakeIdLe; infer_instance

/-- Ordering of foods in the hasher: by `x`, ties by `y`. -/
def foodPosLe (a b : Food) : Prop :=
  a.position.x < b.position.x ∨
    (a.position.x = b.position.x ∧ a.position.y ≤ b.position.y)

instance : DecidableRel foodPosLe := fun a b => by
  unfold foodPosLe; infer_instance

/-- The serialized parts contributed by one snake in `hash.ts`. -/
def snakeHashParts (sn : Snake) : List String :=
  ("s:" ++ sn.id ++ ":" ++ (if sn.alive then "1" else "0") ++ ":" ++ toString sn.score) ::
  (if sn.alive then
    [("b:" ++ String.intercalate ";" (sn.body.map posStr)),
     ("d:" ++ dirName sn.direction)]
   else [])

/-- The serialized part contributed by one food in `hash.ts`. -/
def foodHashPart (f : Food) : String :=
  "f:" ++ posStr f.position ++ ":" ++ foodKindName f.type ++ ":" ++ toString f.value

/-- The state hasher of `hash.ts` (`hashState`): snakes sorted by id, then
foods sorted by position, joined with `|` and fed to `simpleHash`; events
and projectiles are not hashed.  (JS `Array.prototype.sort` is stable, as is
`List.insertionSort`.) -/
def hashState (st : GameState) : String :=
  let snakes := (st.snakes.map Prod.snd).insertionSort snakeIdLe
  let foods := st.foods.insertionSort foodPosLe
  let parts := snakes.flatMap snakeHashParts ++ foods.map foodHashPart
  simpleHash (String.intercalate "|" parts)

/-- Player record, `shared/types.ts` plus the `lastSeq` field merged in by
`room.ts`.  The optional `snake` back-reference is by-id lookup only and is
not modelled; `ping` is presentation data. -/
structure Player where
  id : String
  name : String
  ready : Bool
  spectating : Bool
  lastSeq : Nat
deriving DecidableEq, Repr

/-- Room lifecycle status. -/
inductive RoomStatus where
  | waiting
  | starting
  | playing
  | ended
deriving DecidableEq, Repr

/-- Room record, `shared/types.ts` / `room.ts`, players as an insertion
ordered association list. -/
structure Room where
  code : String
  hostId : String
  settings : RoomSettings
  players : List (String × Player)
  state : GameState
  status : RoomStatus
  tick : Nat
  seed : Nat
deriving DecidableEq, Repr

/-- JS `Map.set` on the player map: replace in place, else append. -/
def pset (l : List (String × Player)) (id : String) (p : Player) :
    List (String × Player) :=
  if l.any fun e => e.1 = id then
    l.map fun e => if e.1 = id then (id, p) else e
  else l ++ [(id, p)]

/-- Join admission, `room.ts` lines 58-75 (`joinRoom`): rejected once the
status has left `waiting` or the player count has reached the maximum;
otherwise the player record is inserted and the join succeeds. -/
def joinRoom (room : Room) (playerId : String) (playerName : String) :
    Bool × Room :=
  if room.status ≠ .waiting then (false, room)
  else if room.settings.maxPlayers ≤ room.players.length then (false, room)
  else
    let p : Player := ⟨playerId, playerName, false, false, 0⟩
    (true, { room with players := pset room.players playerId p })

/-- Messages sent back on the join path of `room.ts` (`handleJoin`). -/
inductive ServerMsg where
  | joined (playerId : String) (roomCode : String) (seed : Nat) (settings : RoomSettings)
  | lobby
  | errorRoomFull
  | errorRoomNotFound
deriving DecidableEq, Repr

/-- Result of handling a join: the updated room, the messages sent, and
whether the handler closed the connection. -/
structure JoinOutcome where
  room : Room
  messages : List ServerMsg
  connectionClosed : Bool
deriving DecidableEq, Repr

/-- The join handler once the room was found, `room.ts` lines 193-216: a
failed `joinRoom` answers `ROOM_FULL` and returns (the handler never closes
the socket); a successful one answers `joined` and broadcasts the lobby. -/
def handleJoinRoomFound (room : Room) (playerId : String) (name : String) :
    JoinOutcome :=
  let r := joinRoom room playerId name
  if r.1 then
    { room := r.2,
      messages := [.joined playerId room.code room.seed room.settings, .lobby],
      connectionClosed := false }
  else
    { room := room, messages := [.errorRoomFull], connectionClosed := false }

/-- Leaderboard row broadcast by `endGame`. -/
structure LeaderboardEntry where
  id : String
  name : String
  score : Nat
  survived : Nat
deriving DecidableEq, Repr

/-- The sort comparator of `endGame`: survival value descending, ties by
score descending (`(a, b) => b.survived - a.survived || b.score - a.score`
up to the explicit inequality test of the source). -/
def lbLe (a b : LeaderboardEntry) : Prop :=
  b.survived < a.survived ∨ (a.survived = b.survived ∧ b.score ≤ a.score)

instance : DecidableRel lbLe := fun a b => by
  unfold lbLe; infer_instance

/-- The leaderboard computed by `room.ts` lines 452-472 (`endGame`): one row
per player, `survived` is the final tick for a player whose snake is still
alive and `0` otherwise, sorted with the stable comparator above (JS
`Array.prototype.sort` is stable; a stable sort under a total preorder is
unique, so `List.insertionSort` computes the same list). -/
def computeLeaderboard (room : Room) : List LeaderboardEntry :=
  (room.players.map fun e =>
    match lget room.state.snakes e.1 with
    | some sn =>
      { id := e.1, name := e.2.name, score := sn.score,
        survived := if sn.alive then room.tick else 0 }
    | none => { id := e.1, name := e.2.name, score := 0, survived := 0 }).insertionSort lbLe

/-- Game end, `room.ts` lines 448-483 (`endGame`): status becomes `ended`
and the leaderboard is broadcast. -/
def endGame (room : Room) : Room × List LeaderboardEntry :=
  let room1 := { room with status := RoomStatus.ended }
  (room1, computeLeaderboard room1)

/-- Count of living snakes. -/
def aliveCount (st : GameState) : Nat :=
  (st.snakes.filter fun e => e.2.alive).length

/-- One firing of the interval callback of `startGameLoop`, `room.ts` lines
349-401: while `playing`, run one step (no boost map is passed), increment
the tick, end the game when at most one snake remains alive (broadcasting
the leaderboard), otherwise broadcast the state and clear the events. -/
def loopTick (room : Room) (rng : RNG) (inputs : InputMap) :
    Room × RNG × Option (List LeaderboardEntry) :=
  if room.status = .playing then
    let r := step room.state inputs room.settings rng noBoosts
    let room1 := { room with state := r.1, tick := room.tick + 1 }
    if aliveCount room1.state ≤ 1 then
      let e := endGame room1
      (e.1, r.2, some e.2)
    else
      ({ room1 with state := { room1.state with events := [] } }, r.2, none)
  else (room, rng, none)

/-- The living/dead flag of a player's snake in a state, `none` when the
player has no snake. -/
def aliveOf (st : GameState) (id : String) : Option Bool :=
  (lget st.snakes id).map Snake.alive

/-- The key list (player ids) of the snake map, in insertion order. -/
def snakeKeys (st : GameState) : List String := st.snakes.map Prod.fst

/-- Number of death events carried by the state for one player. -/
def countDeathEvents (id : String) (st : GameState) : Nat :=
  (st.events.filter fun e =>
    decide (e.type = EventType.death) && decide (e.playerId = some id)).length

section Lemmas

theorem lget_updateSnake_self (l : List (String × Snake)) (id : String)
    (f : Snake → Snake) : lget (updateSnake id f l) id = (lget l id).map f := by
  induction l with
  | nil => rfl
  | cons e rest ih =>
    obtain ⟨k, v⟩ := e
    simp only [updateSnake, List.map_cons] at ih ⊢
    by_cases hk : k = id
    · rw [if_pos hk]
      show lget ((k, f v) :: _) id = _
      simp only [lget]
      rw [if_pos hk, if_pos hk]
      rfl
    · rw [if_neg hk]
      show lget ((k, v) :: _) id = _
      simp only [lget]
      rw [if_neg hk, if_neg hk]
      exact ih

theorem lget_updateSnake_ne (l : List (String × Snake)) (id id' : String)
    (f : Snake → Snake) (h : id' ≠ id) :
    lget (updateSnake id f l) id' = lget l id' := by
  induction l with
  | nil => rfl
  | cons e rest ih =>
    obtain ⟨k, v⟩ := e
    simp only [updateSnake, List.map_cons] at ih ⊢
    by_cases hk : k = id
    · have hk' : k ≠ id' := by rw [hk]; exact fun hh => h hh.symm
      rw [if_pos hk]
      show lget ((k, f v) :: _) id' = _
      simp only [lget]
      rw [if_neg hk', if_neg hk']
      exact ih
    · rw [if_neg hk]
      show lget ((k, v) :: _) id' = _
      simp only [lget]
      by_cases hk' : k = id'
      · rw [if_pos hk', if_pos hk']
      · rw [if_neg hk', if_neg hk']
        exact ih

theorem map_fst_updateSnake (l : List (String × Snake)) (id : String)
    (f : Snake → Snake) : (updateSnake id f l).map Prod.fst = l.map Prod.fst := by
  induction l with
  | nil => rfl
  | cons e rest ih =>
    obtain ⟨k, v⟩ := e
    simp only [updateSnake, List.map_cons] at ih ⊢
    by_cases hk : k = id
    · rw [if_pos hk]
      simpa [hk] using ih
    · rw [if_neg hk]
      simpa using ih

/-- Generic invariant preservation along a left fold. -/
theorem foldl_invariant {α β : Type} (g : α → β → α)
    (P : α → Prop) (l : List β)
    (h : ∀ st b, b ∈ l → P st → P (g st b)) (st : α) (hst : P st) :
    P (l.foldl g st) := by
  induction l generalizing st with
  | nil => exact hst
  | cons b rest ih =>
    exact ih (fun st' b' hb' hp => h st' b' (List.mem_cons_of_mem _ hb') hp)
      (g st b) (h st b (List.mem_cons_self _ _) hst)

theorem killSnake_snakeKeys (st : GameState) (id : String) :
    snakeKeys (killSnake st id) = snakeKeys st := by
  unfold killSnake
  cases lget st.snakes id <;> simp [snakeKeys, map_fst_updateSnake]

theorem killSnake_lget_ne (st : GameState) (id id' : String) (h : id' ≠ id) :
    lget (killSnake st id).snakes id' = lget st.snakes id' := by
  unfold killSnake
  cases lget st.snakes id <;> simp [lget_updateSnake_ne _ _ _ _ h]

theorem killSnake_lget_self (st : GameState) (id : String) :
    lget (killSnake st id).snakes id =
      (lget st.snakes id).map fun s => { s with alive := false } := by
  unfold killSnake
  cases h : lget st.snakes id <;> simp [lget_updateSnake_self, h]

theorem killSnake_events (st : GameState) (id : String) :
    ∃ t, (killSnake st id).events = st.events ++ t := by
  unfold killSnake
  cases lget st.snakes id with
  | none => exact ⟨[], by simp⟩
  | some sn => exact ⟨[deathEvent id sn.body.headI], rfl⟩

theorem killSnake_foods_mono (st : GameState) (id : String) (f : Food)
    (hf : f ∈ st.foods) : f ∈ (killSnake st id).foods := by
  unfold killSnake
  cases lget st.snakes id with
  | none => exact hf
  | some sn =>
    simp only
    generalize st.foods = fs at hf
    generalize (if min 3 (sn.body.length / 2) = 0 then sn.body
      else sn.body.drop (sn.body.length - min 3 (sn.body.length / 2))) = segs
    induction segs generalizing fs with
    | nil => exact hf
    | cons seg rest ih =>
      simp only [List.foldl_cons]
      apply ih
      unfold convertSegment
      dsimp only
      split
      · exact List.mem_append_left _ hf
      · exact hf

theorem killSnake_projectiles (st : GameState) (id : String) :
    (killSnake st id).projectiles = st.projectiles := by
  unfold killSnake
  cases lget st.snakes id <;> simp

theorem killSnake_lget_dead (st : GameState) (j id : String) (sn : Snake)
    (hd : sn.alive = false) (hg : lget st.snakes id = some sn) :
    lget (killSnake st j).snakes id = some sn := by
  by_cases hij : id = j
  · subst hij
    rw [killSnake_lget_self, hg]
    have heq : ({ sn with alive := false } : Snake) = sn := by
      cases sn; simp_all
    show some ({ sn with alive := false } : Snake) = some sn
    rw [heq]
  · rw [killSnake_lget_ne _ _ _ hij]
    exact hg

theorem moveSnakeOnce_lget_ne (settings : RoomSettings) (j : String)
    (st : GameState) (id : String) (h : id ≠ j) :
    lget (moveSnakeOnce settings j st).1.snakes id = lget st.snakes id := by
  unfold moveSnakeOnce
  cases hj : lget st.snakes j with
  | none => rfl
  | some sn =>
    dsimp only
    split
    · exact killSnake_lget_ne st j id h
    · split
      · simpa using lget_updateSnake_ne st.snakes j id _ h
      · simpa using lget_updateSnake_ne st.snakes j id _ h

theorem moveSnake_lget_ne (settings : RoomSettings) (boosts : BoostMap)
    (j : String) (st : GameState) (id : String) (h : id ≠ j) :
    lget (moveSnake settings boosts j st).snakes id = lget st.snakes id := by
  unfold moveSnake
  dsimp only
  split
  · rw [moveSnakeOnce_lget_ne _ _ _ _ h, moveSnakeOnce_lget_ne _ _ _ _ h]
  · exact moveSnakeOnce_lget_ne _ _ _ _ h

theorem moveStep_lget_dead (settings : RoomSettings) (boosts : BoostMap)
    (st : GameState) (j id : String) (sn : Snake)
    (hd : sn.alive = false) (hg : lget st.snakes id = some sn) :
    lget (moveStep settings boosts st j).snakes id = some sn := by
  unfold moveStep
  by_cases hij : id = j
  · subst hij
    rw [hg]
    dsimp only
    simpa [hd] using hg
  · cases lget st.snakes j with
    | none => exact hg
    | some osn =>
      dsimp only
      split
      · rw [moveSnake_lget_ne _ _ _ _ _ hij]; exact hg
      · exact hg

theorem collideOthers_lget_ne (j : String) (hd : Position) (st : GameState)
    (id : String) (h : id ≠ j) :
    lget (collideOthers j hd st).snakes id = lget st.snakes id := by
  unfold collideOthers
  refine foldl_invariant _ (fun acc : GameState => lget acc.snakes id = lget st.snakes id) _ ?_ _ rfl
  intro acc oid _ hp
  unfold collideOtherStep
  split
  · exact hp
  · cases lget acc.snakes oid with
    | none => exact hp
    | some osn =>
      dsimp only
      split
      · rw [killSnake_lget_ne _ _ _ h]; exact hp
      · exact hp

theorem collideSnake_lget_ne (st : GameState) (j id : String) (h : id ≠ j) :
    lget (collideSnake st j).snakes id = lget st.snakes id := by
  unfold collideSnake
  cases lget st.snakes j with
  | none => rfl
  | some sn =>
    dsimp only
    split
    · rfl
    · split
      · exact killSnake_lget_ne _ _ _ h
      · exact collideOthers_lget_ne _ _ _ _ h

theorem collideSnake_lget_dead (st : GameState) (j id : String) (sn : Snake)
    (hd : sn.alive = false) (hg : lget st.snakes id = some sn) :
    lget (collideSnake st j).snakes id = some sn := by
  by_cases hij : id = j
  · subst hij
    unfold collideSnake
    rw [hg]
    dsimp only
    simpa [hd] using hg
  · rw [collideSnake_lget_ne _ _ _ hij]
    exact hg

theorem projectileHitSnake_lget_dead (pos : Position) (owner : String)
    (acc : GameState × Bool) (sid id : String) (sn : Snake)
    (hd : sn.alive = false) (hg : lget acc.1.snakes id = some sn) :
    lget (projectileHitSnake pos owner acc sid).1.snakes id = some sn := by
  unfold projectileHitSnake
  by_cases his : id = sid
  · subst his
    rw [hg]
    dsimp only
    simpa [hd] using hg
  · cases lget acc.1.snakes sid with
    | none => exact hg
    | some osn =>
      dsimp only
      split
      · split
        · exact killSnake_lget_dead _ _ _ _ hd hg
        · rw [lget_updateSnake_ne _ _ _ _ his]; exact hg
      · exact hg

theorem stepProjectile_lget_dead (settings : RoomSettings)
    (acc : GameState × List Projectile) (p : Projectile) (id : String)
    (sn : Snake) (hd : sn.alive = false)
    (hg : lget acc.1.snakes id = some sn) :
    lget (stepProjectile settings acc p).1.snakes id = some sn := by
  unfold stepProjectile
  dsimp only
  split
  · exact hg
  · unfold projectileHit
    refine foldl_invariant _ (fun a : GameState × Bool => lget a.1.snakes id = some sn) _ ?_ _ hg
    intro a sid _ hp
    exact projectileHitSnake_lget_dead _ _ _ _ _ _ hd hp

theorem spawnFoodsAux_snakes (settings : RoomSettings) (fuel : Nat) :
    ∀ (st : GameState) (rng : RNG),
      (spawnFoodsAux settings fuel st rng).1.snakes = st.snakes := by
  induction fuel with
  | zero => intro st rng; rfl
  | succ n ih =>
    intro st rng
    unfold spawnFoodsAux
    split
    · split
      · rw [ih]
      · rfl
    · rfl

theorem spawnFoods_snakes (settings : RoomSettings) (st : GameState)
    (rng : RNG) : (spawnFoods settings st rng).1.snakes = st.snakes :=
  spawnFoodsAux_snakes settings _ st rng

theorem movePhase_lget_dead (settings : RoomSettings) (boosts : BoostMap)
    (st : GameState) (id : String) (sn : Snake) (hd : sn.alive = false)
    (hg : lget st.snakes id = some sn) :
    lget (movePhase settings boosts st).snakes id = some sn := by
  unfold movePhase
  refine foldl_invariant _ (fun acc : GameState => lget acc.snakes id = some sn) _ ?_ _ hg
  intro acc j _ hp
  exact moveStep_lget_dead _ _ _ _ _ _ hd hp

theorem collisionPhase_lget_dead (st : GameState) (id : String) (sn : Snake)
    (hd : sn.alive = false) (hg : lget st.snakes id = some sn) :
    lget (collisionPhase st).snakes id = some sn := by
  unfold collisionPhase
  refine foldl_invariant _ (fun acc : GameState => lget acc.snakes id = some sn) _ ?_ _ hg
  intro acc j _ hp
  exact collideSnake_lget_dead _ _ _ _ hd hp

theorem projectilePhase_lget_dead (settings : RoomSettings) (st : GameState)
    (id : String) (sn : Snake) (hd : sn.alive = false)
    (hg : lget st.snakes id = some sn) :
    lget (projectilePhase settings st).snakes id = some sn := by
  unfold projectilePhase
  dsimp only
  refine foldl_invariant _ (fun a : GameState × List Projectile => lget a.1.snakes id = some sn) _ ?_ _ hg
  intro a p _ hp
  exact stepProjectile_lget_dead _ _ _ _ _ hd hp

theorem lget_dirPhase (inputs : InputMap) (l : List (String × Snake))
    (id : String) :
    lget (dirPhase inputs l) id =
      (lget l id).map fun v => if v.alive then applyInput inputs id v else v := by
  induction l with
  | nil => rfl
  | cons e rest ih =>
    obtain ⟨k, v⟩ := e
    simp only [dirPhase, List.map_cons] at ih ⊢
    by_cases hv : v.alive
    · rw [if_pos hv]
      show lget ((k, applyInput inputs k v) :: _) id = _
      simp only [lget]
      by_cases hk : k = id
      · subst hk
        rw [if_pos rfl, if_pos rfl]
        simp [hv]
      · rw [if_neg hk, if_neg hk]
        exact ih
    · rw [if_neg hv]
      show lget ((k, v) :: _) id = _
      simp only [lget]
      by_cases hk : k = id
      · subst hk
        rw [if_pos rfl, if_pos rfl]
        simp [hv]
      · rw [if_neg hk, if_neg hk]
        exact ih

theorem countDeathEvents_def (id : String) (st : GameState) :
    countDeathEvents id st =
      (st.events.filter fun e =>
        decide (e.type = EventType.death) && decide (e.playerId = some id)).length := rfl

theorem countDeath_append (id : String) (es t : List GameEvent) :
    ((es ++ t).filter fun e =>
        decide (e.type = EventType.death) && decide (e.playerId = some id)).length =
      (es.filter fun e =>
        decide (e.type = EventType.death) && decide (e.playerId = some id)).length +
      (t.filter fun e =>
        decide (e.type = EventType.death) && decide (e.playerId = some id)).length := by
  rw [List.filter_append, List.length_append]

theorem countDeath_killSnake_ne (st : GameState) (j i : String) (h : i ≠ j) :
    countDeathEvents i (killSnake st j) = countDeathEvents i st := by
  unfold killSnake
  cases lget st.snakes j with
  | none => rfl
  | some sn =>
    dsimp only
    rw [countDeathEvents_def, countDeathEvents_def]
    show ((st.events ++ [deathEvent j sn.body.headI]).filter _).length = _
    rw [countDeath_append]
    simp [deathEvent]
    exact fun hh => h hh.symm

theorem countDeath_killSnake_self (st : GameState) (i : String) (sn : Snake)
    (hg : lget st.snakes i = some sn) :
    countDeathEvents i (killSnake st i) = countDeathEvents i st + 1 := by
  unfold killSnake
  rw [hg]
  dsimp only
  rw [countDeathEvents_def, countDeathEvents_def]
  show ((st.events ++ [deathEvent i sn.body.headI]).filter _).length = _
  rw [countDeath_append]
  simp [deathEvent]

theorem countDeath_eatEvents (i j : String) (l : List Food) :
    ((l.map (eatEvent j)).filter fun e =>
      decide (e.type = EventType.death) && decide (e.playerId = some i)).length = 0 := by
  induction l with
  | nil => rfl
  | cons f rest ih => simpa [eatEvent] using ih

theorem countDeath_moveSnakeOnce_ne (settings : RoomSettings) (j : String)
    (st : GameState) (i : String) (h : i ≠ j) :
    countDeathEvents i (moveSnakeOnce settings j st).1 = countDeathEvents i st := by
  unfold moveSnakeOnce
  cases lget st.snakes j with
  | none => rfl
  | some sn =>
    dsimp only
    split
    · exact countDeath_killSnake_ne st j i h
    · split <;>
      · rw [countDeathEvents_def, countDeathEvents_def]
        show ((st.events ++ _).filter _).length = _
        rw [countDeath_append, countDeath_eatEvents]
        omega

theorem countDeath_moveSnake_ne (settings : RoomSettings) (boosts : BoostMap)
    (j : String) (st : GameState) (i : String) (h : i ≠ j) :
    countDeathEvents i (moveSnake settings boosts j st) = countDeathEvents i st := by
  unfold moveSnake
  dsimp only
  split
  · rw [countDeath_moveSnakeOnce_ne _ _ _ _ h, countDeath_moveSnakeOnce_ne _ _ _ _ h]
  · exact countDeath_moveSnakeOnce_ne _ _ _ _ h

theorem countDeath_moveStep_ne (settings : RoomSettings) (boosts : BoostMap)
    (st : GameState) (j i : String) (h : i ≠ j) :
    countDeathEvents i (moveStep settings boosts st j) = countDeathEvents i st := by
  unfold moveStep
  cases lget st.snakes j with
  | none => rfl
  | some sn =>
    dsimp only
    split
    · exact countDeath_moveSnake_ne _ _ _ _ _ h
    · rfl

theorem countDeath_collideOthers_ne (j : String) (hd : Position)
    (st : GameState) (i : String) (h : i ≠ j) :
    countDeathEvents i (collideOthers j hd st) = countDeathEvents i st := by
  unfold collideOthers
  refine foldl_invariant _
    (fun acc : GameState => countDeathEvents i acc = countDeathEvents i st) _ ?_ _ rfl
  intro acc oid _ hp
  unfold collideOtherStep
  split
  · exact hp
  · cases lget acc.snakes oid with
    | none => exact hp
    | some osn =>
      dsimp only
      split
      · rw [countDeath_killSnake_ne _ _ _ h]; exact hp
      · exact hp

theorem countDeath_collideSnake_ne (st : GameState) (j i : String) (h : i ≠ j) :
    countDeathEvents i (collideSnake st j) = countDeathEvents i st := by
  unfold collideSnake
  cases lget st.snakes j with
  | none => rfl
  | some sn =>
    dsimp only
    split
    · rfl
    · split
      · exact countDeath_killSnake_ne _ _ _ h
      · exact countDeath_collideOthers_ne _ _ _ _ h

theorem countDeath_record_append_hit (i : String) (st : GameState)
    (sid : String) (pos : Position) (dmg : Nat) :
    countDeathEvents i { st with events := st.events ++ [hitEvent sid pos dmg] } =
      countDeathEvents i st := by
  rw [countDeathEvents_def, countDeathEvents_def]
  dsimp only
  rw [countDeath_append]
  simp [hitEvent]

theorem countDeath_projectileHitSnake_dead (pos : Position) (owner : String)
    (acc : GameState × Bool) (sid i : String) (sn : Snake)
    (hd : sn.alive = false) (hg : lget acc.1.snakes i = some sn) :
    countDeathEvents i (projectileHitSnake pos owner acc sid).1 =
      countDeathEvents i acc.1 := by
  unfold projectileHitSnake
  by_cases his : i = sid
  · subst his
    rw [hg]
    dsimp only
    simp [hd]
  · cases lget acc.1.snakes sid with
    | none => rfl
    | some osn =>
      dsimp only
      split
      · rw [countDeath_record_append_hit]
        split
        · exact countDeath_killSnake_ne _ _ _ his
        · rfl
      · rfl

theorem countDeath_stepProjectile_dead (settings : RoomSettings)
    (acc : GameState × List Projectile) (p : Projectile) (i : String)
    (sn : Snake) (hd : sn.alive = false)
    (hg : lget acc.1.snakes i = some sn) :
    countDeathEvents i (stepProjectile settings acc p).1 =
      countDeathEvents i acc.1 := by
  unfold stepProjectile
  dsimp only
  split
  · rfl
  · unfold projectileHit
    exact (foldl_invariant _
      (fun a : GameState × Bool =>
        lget a.1.snakes i = some sn ∧ countDeathEvents i a.1 = countDeathEvents i acc.1)
      _
      (fun a sid _ hp => ⟨projectileHitSnake_lget_dead _ _ _ _ _ _ hd hp.1,
        by rw [countDeath_projectileHitSnake_dead _ _ _ _ _ _ hd hp.1]; exact hp.2⟩)
      (acc.1, false) ⟨hg, rfl⟩).2

theorem countDeath_projectilePhase_dead (settings : RoomSettings)
    (st : GameState) (i : String) (sn : Snake) (hd : sn.alive = false)
    (hg : lget st.snakes i = some sn) :
    countDeathEvents i (projectilePhase settings st) = countDeathEvents i st := by
  unfold projectilePhase
  dsimp only
  exact (foldl_invariant _
    (fun a : GameState × List Projectile =>
      lget a.1.snakes i = some sn ∧ countDeathEvents i a.1 = countDeathEvents i st)
    _
    (fun a p _ hp => ⟨stepProjectile_lget_dead _ _ _ _ _ hd hp.1,
      by rw [countDeath_stepProjectile_dead _ _ _ _ _ hd hp.1]; exact hp.2⟩)
    (st, []) ⟨hg, rfl⟩).2

theorem countDeath_spawnFoodsAux (settings : RoomSettings) (fuel : Nat)
    (i : String) :
    ∀ (st : GameState) (rng : RNG),
      countDeathEvents i (spawnFoodsAux settings fuel st rng).1 =
        countDeathEvents i st := by
  induction fuel with
  | zero => intro st rng; rfl
  | succ n ih =>
    intro st rng
    unfold spawnFoodsAux
    split
    · split
      · rename_i pos rng1 heq
        rw [ih]
        rw [countDeathEvents_def, countDeathEvents_def]
        show ((st.events ++ [spawnEvent pos _]).filter _).length = _
        rw [countDeath_append]
        simp [spawnEvent]
      · rfl
    · rfl

theorem countDeath_spawnFoods (settings : RoomSettings) (st : GameState)
    (rng : RNG) (i : String) :
    countDeathEvents i (spawnFoods settings st rng).1 = countDeathEvents i st :=
  countDeath_spawnFoodsAux settings _ i st rng

theorem snakeKeys_dirPhase (inputs : InputMap) (l : List (String × Snake)) :
    (dirPhase inputs l).map Prod.fst = l.map Prod.fst := by
  induction l with
  | nil => rfl
  | cons e rest ih =>
    obtain ⟨k, v⟩ := e
    simp only [dirPhase, List.map_cons] at ih ⊢
    by_cases hv : v.alive
    · rw [if_pos hv]
      simpa using ih
    · rw [if_neg hv]
      simpa using ih

theorem moveSnakeOnce_snakeKeys (settings : RoomSettings) (j : String)
    (st : GameState) :
    snakeKeys (moveSnakeOnce settings j st).1 = snakeKeys st := by
  unfold moveSnakeOnce
  cases lget st.snakes j with
  | none => rfl
  | some sn =>
    dsimp only
    split
    · exact killSnake_snakeKeys st j
    · split
      · simpa [snakeKeys] using map_fst_updateSnake st.snakes j _
      · simpa [snakeKeys] using map_fst_updateSnake st.snakes j _

theorem moveSnake_snakeKeys (settings : RoomSettings) (boosts : BoostMap)
    (j : String) (st : GameState) :
    snakeKeys (moveSnake settings boosts j st) = snakeKeys st := by
  unfold moveSnake
  dsimp only
  split
  · rw [moveSnakeOnce_snakeKeys, moveSnakeOnce_snakeKeys]
  · exact moveSnakeOnce_snakeKeys _ _ _

theorem moveStep_snakeKeys (settings : RoomSettings) (boosts : BoostMap)
    (st : GameState) (j : String) :
    snakeKeys (moveStep settings boosts st j) = snakeKeys st := by
  unfold moveStep
  cases lget st.snakes j with
  | none => rfl
  | some sn =>
    dsimp only
    split
    · exact moveSnake_snakeKeys _ _ _ _
    · rfl

theorem movePhase_snakeKeys (settings : RoomSettings) (boosts : BoostMap)
    (st : GameState) : snakeKeys (movePhase settings boosts st) = snakeKeys st := by
  unfold movePhase
  refine foldl_invariant _ (fun acc : GameState => snakeKeys acc = snakeKeys st) _ ?_ _ rfl
  intro acc j _ hp
  rw [moveStep_snakeKeys]
  exact hp

theorem collideOthers_snakeKeys (j : String) (hd : Position) (st : GameState) :
    snakeKeys (collideOthers j hd st) = snakeKeys st := by
  unfold collideOthers
  refine foldl_invariant _ (fun acc : GameState => snakeKeys acc = snakeKeys st) _ ?_ _ rfl
  intro acc oid _ hp
  unfold collideOtherStep
  split
  · exact hp
  · cases lget acc.snakes oid with
    | none => exact hp
    | some osn =>
      dsimp only
      split
      · rw [killSnake_snakeKeys]; exact hp
      · exact hp

theorem collideSnake_snakeKeys (st : GameState) (j : String) :
    snakeKeys (collideSnake st j) = snakeKeys st := by
  unfold collideSnake
  cases lget st.snakes j with
  | none => rfl
  | some sn =>
    dsimp only
    split
    · rfl
    · split
      · exact killSnake_snakeKeys _ _
      · exact collideOthers_snakeKeys _ _ _

theorem collisionPhase_snakeKeys (st : GameState) :
    snakeKeys (collisionPhase st) = snakeKeys st := by
  unfold collisionPhase
  refine foldl_invariant _ (fun acc : GameState => snakeKeys acc = snakeKeys st) _ ?_ _ rfl
  intro acc j _ hp
  rw [collideSnake_snakeKeys]
  exact hp

theorem projectileHitSnake_snakeKeys (pos : Position) (owner : String)
    (acc : GameState × Bool) (sid : String) :
    snakeKeys (projectileHitSnake pos owner acc sid).1 = snakeKeys acc.1 := by
  unfold projectileHitSnake
  cases lget acc.1.snakes sid with
  | none => rfl
  | some sn =>
    dsimp only
    split
    · split
      · simpa [snakeKeys] using killSnake_snakeKeys acc.1 sid
      · simpa [snakeKeys] using map_fst_updateSnake acc.1.snakes sid _
    · rfl

theorem stepProjectile_snakeKeys (settings : RoomSettings)
    (acc : GameState × List Projectile) (p : Projectile) :
    snakeKeys (stepProjectile settings acc p).1 = snakeKeys acc.1 := by
  unfold stepProjectile
  dsimp only
  split
  · rfl
  · unfold projectileHit
    refine foldl_invariant _
      (fun a : GameState × Bool => snakeKeys a.1 = snakeKeys acc.1) _ ?_ _ rfl
    intro a sid _ hp
    rw [projectileHitSnake_snakeKeys]
    exact hp

theorem projectilePhase_snakeKeys (settings : RoomSettings) (st : GameState) :
    snakeKeys (projectilePhase settings st) = snakeKeys st := by
  unfold projectilePhase
  dsimp only
  refine foldl_invariant _
    (fun a : GameState × List Projectile => snakeKeys a.1 = snakeKeys st) _ ?_ _ rfl
  intro a p _ hp
  rw [stepProjectile_snakeKeys]
  exact hp

/-- The step function never adds or removes a snake, and keeps the map
order: the key list of the output equals that of the input. -/
theorem step_snakeKeys (state : GameState) (inputs : InputMap)
    (settings : RoomSettings) (rng : RNG) (boosts : BoostMap) :
    snakeKeys (step state inputs settings rng boosts).1 = snakeKeys state := by
  unfold step postMoveState
  show snakeKeys (spawnFoods _ _ _).1 = _
  have hs := spawnFoods_snakes settings
    (projectilePhase settings (collisionPhase (movePhase settings boosts (preMoveState state inputs)))) rng
  have : snakeKeys (spawnFoods settings
      (projectilePhase settings (collisionPhase (movePhase settings boosts (preMoveState state inputs)))) rng).1 =
      snakeKeys (projectilePhase settings (collisionPhase (movePhase settings boosts (preMoveState state inputs)))) := by
    unfold snakeKeys
    rw [hs]
  rw [this, projectilePhase_snakeKeys, collisionPhase_snakeKeys, movePhase_snakeKeys]
  show (dirPhase inputs state.snakes).map Prod.fst = _
  exact snakeKeys_dirPhase inputs state.snakes

/-- Snakes that are dead entering a tick are returned untouched by `step`. -/
theorem step_lget_dead (state : GameState) (inputs : InputMap)
    (settings : RoomSettings) (rng : RNG) (boosts : BoostMap) (id : String)
    (sn : Snake) (hd : sn.alive = false)
    (hg : lget state.snakes id = some sn) :
    lget (step state inputs settings rng boosts).1.snakes id = some sn := by
  have h0 : lget (preMoveState state inputs).snakes id = some sn := by
    show lget (dirPhase inputs state.snakes) id = some sn
    rw [lget_dirPhase, hg]
    simp [hd]
  unfold step postMoveState
  rw [spawnFoods_snakes]
  exact projectilePhase_lget_dead _ _ _ _ hd
    (collisionPhase_lget_dead _ _ _ hd
      (movePhase_lget_dead _ _ _ _ _ hd h0))

/-- Lookup in the player association list (JS `Map.get`). -/
def pget : List (String × Player) → String → Option Player
  | [], _ => none
  | (k, v) :: rest, id => if k = id then some v else pget rest id

theorem pget_map_replace_self (l : List (String × Player)) (id : String)
    (p : Player) (hany : (l.any fun e => decide (e.1 = id)) = true) :
    pget (l.map fun e => if e.1 = id then (id, p) else e) id = some p := by
  induction l with
  | nil => simp at hany
  | cons e rest ih =>
    obtain ⟨k, v⟩ := e
    simp only [List.map_cons]
    by_cases hk : k = id
    · rw [if_pos hk]
      show pget ((id, p) :: _) id = some p
      simp [pget]
    · rw [if_neg hk]
      show pget ((k, v) :: _) id = some p
      simp only [pget]
      rw [if_neg hk]
      apply ih
      simp only [List.any_cons] at hany
      rcases Bool.or_eq_true_iff.mp hany with h1 | h2
      · exact absurd (by simpa using h1) hk
      · exact h2

theorem pget_append_self (l : List (String × Player)) (id : String)
    (p : Player) (hany : ¬ (l.any fun e => decide (e.1 = id)) = true) :
    pget (l ++ [(id, p)]) id = some p := by
  induction l with
  | nil => simp [pget]
  | cons e rest ih =>
    obtain ⟨k, v⟩ := e
    simp only [List.cons_append, pget]
    have hk : k ≠ id := by
      intro hk
      apply hany
      simp [hk]
    rw [if_neg hk]
    apply ih
    intro hcon
    apply hany
    simp only [List.any_cons]
    exact Bool.or_eq_true_iff.mpr (Or.inr hcon)

theorem pget_pset_self (l : List (String × Player)) (id : String) (p : Player) :
    pget (pset l id p) id = some p := by
  unfold pset
  split
  · exact pget_map_replace_self l id p (by assumption)
  · exact pget_append_self l id p (by assumption)

theorem pget_map_replace_ne (l : List (String × Player)) (id q : String)
    (p : Player) (h : q ≠ id) :
    pget (l.map fun e => if e.1 = id then (id, p) else e) q = pget l q := by
  induction l with
  | nil => rfl
  | cons e rest ih =>
    obtain ⟨k, v⟩ := e
    simp only [List.map_cons]
    by_cases hk : k = id
    · rw [if_pos hk]
      show pget ((id, p) :: _) q = _
      simp only [pget]
      rw [if_neg (fun hh => h hh.symm), if_neg (by rw [hk]; exact fun hh => h hh.symm)]
      exact ih
    · rw [if_neg hk]
      show pget ((k, v) :: _) q = _
      simp only [pget]
      by_cases hk' : k = q
      · rw [if_pos hk', if_pos hk']
      · rw [if_neg hk', if_neg hk']
        exact ih

theorem pget_append_ne (l : List (String × Player)) (id q : String)
    (p : Player) (h : q ≠ id) :
    pget (l ++ [(id, p)]) q = pget l q := by
  induction l with
  | nil => simp [pget, if_neg (fun hh : id = q => h hh.symm)]
  | cons e rest ih =>
    obtain ⟨k, v⟩ := e
    simp only [List.cons_append, pget]
    by_cases hk' : k = q
    · rw [if_pos hk', if_pos hk']
    · rw [if_neg hk', if_neg hk']
      exact ih

theorem pget_pset_ne (l : List (String × Player)) (id q : String) (p : Player)
    (h : q ≠ id) : pget (pset l id p) q = pget l q := by
  unfold pset
  split
  · exact pget_map_replace_ne l id q p h
  · exact pget_append_ne l id q p h

end Lemmas

section Fixtures

/-- Ten-by-ten wrap-enabled settings with no food target, used by the
concrete scenarios (the zero target keeps replenishment out of scenarios it
is irrelevant to). -/
def wrapSettings : RoomSettings := ⟨10, 10, true, 10, 6, 0, 1 / 10⟩

/-- Ten-by-ten settings with wrap disabled. -/
def noWrapSettings : RoomSettings := ⟨10, 10, false, 10, 6, 0, 1 / 10⟩

/-- The empty input map. -/
def noInputs : InputMap := fun _ => none

/-- A living snake fixture. -/
def mkSnake (id : String) (body : List Position) (dir : Direction) : Snake :=
  ⟨id, body, dir, true, 0, "#00ffff"⟩

/-- Two snakes approaching head-on: both heads land on `(6,5)` this tick. -/
def headOnState : GameState :=
  ⟨[("A", mkSnake "A" [⟨5, 5⟩, ⟨4, 5⟩, ⟨3, 5⟩] .right),
    ("B", mkSnake "B" [⟨7, 5⟩, ⟨8, 5⟩, ⟨9, 5⟩] .left)], [], [], []⟩

/-- Three snakes whose heads all land on `(5,5)` this tick. -/
def threeWayState : GameState :=
  ⟨[("A", mkSnake "A" [⟨4, 5⟩, ⟨3, 5⟩, ⟨2, 5⟩] .right),
    ("B", mkSnake "B" [⟨6, 5⟩, ⟨7, 5⟩, ⟨8, 5⟩] .left),
    ("C", mkSnake "C" [⟨5, 4⟩, ⟨5, 3⟩, ⟨5, 2⟩] .down)], [], [], []⟩

/-- A snake about to eat the food at `(6,5)` while the projectile at `(6,7)`
(owned by an absent player) flies up and lands on its new head cell. -/
def eatHitState : GameState :=
  ⟨[("A", mkSnake "A" [⟨5, 5⟩, ⟨4, 5⟩, ⟨3, 5⟩] .right)],
   [⟨⟨6, 5⟩, .normal, 1⟩],
   [⟨⟨6, 7⟩, .up, "Z", 5⟩], []⟩

/-- Settings with a food target of one. -/
def oneFoodSettings : RoomSettings := ⟨10, 10, true, 10, 6, 1, 1 / 10⟩

/-- A six-segment snake that self-collides this tick (its death converts
three tail segments to food), with the food count already at its target. -/
def overshootState : GameState :=
  ⟨[("A", mkSnake "A" [⟨5, 5⟩, ⟨5, 6⟩, ⟨6, 6⟩, ⟨6, 5⟩, ⟨7, 5⟩, ⟨8, 5⟩] .right)],
   [⟨⟨0, 9⟩, .normal, 1⟩], [], []⟩

/-- A lone projectile owned by an absent player. -/
def soloProjectile : Projectile := ⟨⟨3, 3⟩, .right, "Z", 5⟩

/-- A state holding only `soloProjectile`. -/
def soloProjectileState : GameState := ⟨[], [], [soloProjectile], []⟩

/-- A dead snake fixture (as left behind by an earlier death). -/
def deadSnakeA : Snake :=
  ⟨"A", [⟨2, 2⟩, ⟨3, 2⟩, ⟨4, 2⟩], .left, false, 4, "#ff00ff"⟩

/-- A state with one dead and one living snake. -/
def mixedState : GameState :=
  ⟨[("A", deadSnakeA), ("B", mkSnake "B" [⟨7, 7⟩, ⟨8, 7⟩, ⟨9, 7⟩] .left)],
   [], [], []⟩

/-- Three players heading for the walls of a wrap-disabled grid: `A` dies on
the first tick, `B` on the second, `C` survives. -/
def lbRoom : Room :=
  ⟨"ROOM01", "A", noWrapSettings,
   [("A", ⟨"A", "Alice", true, false, 0⟩),
    ("B", ⟨"B", "Bob", true, false, 0⟩),
    ("C", ⟨"C", "Carol", true, false, 0⟩)],
   ⟨[("A", { mkSnake "A" [⟨0, 0⟩, ⟨1, 0⟩, ⟨2, 0⟩] .left with score := 3 }),
     ("B", mkSnake "B" [⟨1, 5⟩, ⟨2, 5⟩, ⟨3, 5⟩] .left),
     ("C", { mkSnake "C" [⟨5, 8⟩, ⟨6, 8⟩, ⟨7, 8⟩] .left with score := 7 })],
    [], [], []⟩,
   .playing, 0, 42⟩

/-- The room after one firing of the game-loop callback. -/
def lbTick1 : Room × RNG × Option (List LeaderboardEntry) :=
  loopTick lbRoom (mkRNG 42) noInputs

/-- The room after a second firing of the game-loop callback. -/
def lbTick2 : Room × RNG × Option (List LeaderboardEntry) :=
  loopTick lbTick1.1 lbTick1.2.1 noInputs

/-- The in-place writes `step` performs on each projectile object of its
input state: the copy `[...state.projectiles]` shares the projectile
objects, and the filter then assigns `projectile.position` (advanced
`PROJECTILE_SPEED` cells) and decrements `projectile.lifetime`, so the
caller's state observes these writes after the call. -/
def projectileWriteBack (settings : RoomSettings) (p : Projectile) : Projectile :=
  { p with
      position := (List.range PROJECTILE_SPEED).foldl
        (fun q _ => movePosition q p.direction settings) p.position,
      lifetime := p.lifetime - 1 }

end Fixtures

section Claims

/-- C1: two runs of the same step-function sequence from the same state,
inputs, settings, and RNG seed produce identical states at every tick and
identical `hashState` strings.  (In this embedding the step function and
the spec-modelled RNG are pure, so determinism is definitional.) -/
theorem step_sequence_deterministic (s1 s2 : GameState)
    (i1 i2 : List InputMap) (set1 set2 : RoomSettings) (n1 n2 : Nat)
    (hs : s1 = s2) (hi : i1 = i2) (hset : set1 = set2) (hn : n1 = n2) :
    runSteps set1 (s1, mkRNG n1) i1 = runSteps set2 (s2, mkRNG n2) i2 ∧
    hashState (runSteps set1 (s1, mkRNG n1) i1).1 =
      hashState (runSteps set2 (s2, mkRNG n2) i2).1 := by
  subst hs hi hset hn
  exact ⟨rfl, rfl⟩

/-- C1 witness: the determinism theorem applied to the concrete head-on
scenario over three ticks. -/
theorem step_sequence_deterministic_witness :
    runSteps wrapSettings (headOnState, mkRNG 5) [noInputs, noInputs, noInputs] =
      runSteps wrapSettings (headOnState, mkRNG 5) [noInputs, noInputs, noInputs] ∧
    hashState (runSteps wrapSettings (headOnState, mkRNG 5) [noInputs, noInputs, noInputs]).1 =
      hashState (runSteps wrapSettings (headOnState, mkRNG 5) [noInputs, noInputs, noInputs]).1 :=
  step_sequence_deterministic _ _ _ _ _ _ _ _ rfl rfl rfl rfl

/-- C2: evidence that `step` does not leave its argument unchanged.  The
projectile array is shallow-copied (`[...state.projectiles]`), so the
projectile objects are shared, and the filter then writes
`projectile.position` and `projectile.lifetime` in place — the caller's
state observes `projectileWriteBack` on each projectile.  On the concrete
input the written-back object (which here survives into the output
unchanged) differs from the original, so the caller's state was mutated. -/
theorem step_writes_back_projectiles :
    (step soloProjectileState noInputs wrapSettings (mkRNG 7) noBoosts).1.projectiles =
      [projectileWriteBack wrapSettings soloProjectile] ∧
    projectileWriteBack wrapSettings soloProjectile ≠ soloProjectile := by
  decide

/-- C3 counterexample: two living snakes meet head-on (both post-movement
heads on `(6,5)`), yet only the first snake in map order dies — the second
survives, although its head coincides with a segment of a snake that was
living after movement.  This refutes both the universal death condition and
the claim that neither snake is given priority. -/
theorem headOn_collision_priority :
    aliveOf (postMoveState headOnState noInputs wrapSettings noBoosts) "A" = some true ∧
    aliveOf (postMoveState headOnState noInputs wrapSettings noBoosts) "B" = some true ∧
    (lget (postMoveState headOnState noInputs wrapSettings noBoosts).snakes "A").map
        (fun s => s.body.headI) =
      (lget (postMoveState headOnState noInputs wrapSettings noBoosts).snakes "B").map
        (fun s => s.body.headI) ∧
    aliveOf (step headOnState noInputs wrapSettings (mkRNG 1) noBoosts).1 "A" = some false ∧
    aliveOf (step headOnState noInputs wrapSettings (mkRNG 1) noBoosts).1 "B" = some true := by
  decide

/-- C4 counterexample: in the concrete two-tick run, `A` dies on tick 1 and
`B` on tick 2 (so `B` survived strictly longer), yet the broadcast
leaderboard ranks `A` above `B` because every dead player gets
`survived = 0` and the tie is broken by score — the leaderboard is not
sorted by the number of ticks each player survived. -/
theorem leaderboard_not_sorted_by_survival :
    aliveOf lbTick1.1.state "A" = some false ∧
    aliveOf lbTick1.1.state "B" = some true ∧
    lbTick1.1.status = RoomStatus.playing ∧
    aliveOf lbTick2.1.state "B" = some false ∧
    lbTick2.1.status = RoomStatus.ended ∧
    lbTick2.2.2 = some
      [⟨"C", "Carol", 7, 2⟩, ⟨"A", "Alice", 3, 0⟩, ⟨"B", "Bob", 0, 0⟩] := by
  decide

/-- C5 counterexample: in the three-way head collision, snake `A` is killed
twice in the same tick (once per living other snake holding its head cell)
and two death events are emitted for it, refuting "exactly one death
event". -/
theorem threeWay_double_death_events :
    aliveOf threeWayState "A" = some true ∧
    aliveOf (step threeWayState noInputs wrapSettings (mkRNG 1) noBoosts).1 "A" = some false ∧
    countDeathEvents "A" (step threeWayState noInputs wrapSettings (mkRNG 1) noBoosts).1 = 2 := by
  decide

/-- C6 counterexample: snake `A` (pre-tick length 3) eats the value-1 food,
but a projectile strikes it in the same tick and pops two tail segments: its
score rises by 1 as claimed, yet its body length ends at 2, not the claimed
`3 + 1`. -/
theorem eat_with_projectile_hit_breaks_growth :
    (lget eatHitState.snakes "A").map (fun s => s.body.length) = some 3 ∧
    eatHitState.foods = [⟨⟨6, 5⟩, FoodKind.normal, 1⟩] ∧
    (lget (step eatHitState noInputs wrapSettings (mkRNG 1) noBoosts).1.snakes "A").map
        Snake.score = some 1 ∧
    eatEvent "A" ⟨⟨6, 5⟩, FoodKind.normal, 1⟩ ∈
      (step eatHitState noInputs wrapSettings (mkRNG 1) noBoosts).1.events ∧
    (lget (step eatHitState noInputs wrapSettings (mkRNG 1) noBoosts).1.snakes "A").map
        (fun s => s.body.length) = some 2 ∧
    ¬ (lget (step eatHitState noInputs wrapSettings (mkRNG 1) noBoosts).1.snakes "A").map
        (fun s => s.body.length) = some (3 + 1) := by
  decide

/-- C8 counterexample: the six-segment snake self-collides and its death
converts three tail segments to food, leaving 4 food items although the
configured target is 1 and empty cells (for example `(0,0)`) exist — the
food count after the step does not equal the target. -/
theorem food_overshoot_after_death :
    (step overshootState noInputs oneFoodSettings (mkRNG 1) noBoosts).1.foods.length = 4 ∧
    oneFoodSettings.foodCount = 1 ∧
    isOccupied (step overshootState noInputs oneFoodSettings (mkRNG 1) noBoosts).1 ⟨0, 0⟩ = false := by
  decide

/-- C9: `joinRoom` rejects (returns `false`, leaving the player map
unchanged) exactly when the room status is not `waiting` or the player
count has reached `maxPlayers`; a rejected join is answered with a
`ROOM_FULL` error and the connection stays open, and otherwise the player
is inserted and `joinRoom` returns `true`. -/
theorem joinRoom_rejects_iff (room : Room) (pid pname : String) :
    ((joinRoom room pid pname).1 = false ↔
      room.status ≠ RoomStatus.waiting ∨
        room.settings.maxPlayers ≤ room.players.length) ∧
    ((joinRoom room pid pname).1 = false →
      (joinRoom room pid pname).2 = room ∧
      handleJoinRoomFound room pid pname =
        ⟨room, [ServerMsg.errorRoomFull], false⟩) ∧
    ((joinRoom room pid pname).1 = true →
      pget (joinRoom room pid pname).2.players pid = some ⟨pid, pname, false, false, 0⟩ ∧
      (∀ q, q ≠ pid →
        pget (joinRoom room pid pname).2.players q = pget room.players q) ∧
      handleJoinRoomFound room pid pname =
        ⟨(joinRoom room pid pname).2,
         [ServerMsg.joined pid room.code room.seed room.settings, ServerMsg.lobby],
         false⟩) := by
  by_cases hs : room.status = RoomStatus.waiting
  · by_cases hm : room.settings.maxPlayers ≤ room.players.length
    · refine ⟨?_, ?_, ?_⟩ <;> simp [joinRoom, handleJoinRoomFound, hs, hm]
    · refine ⟨?_, ?_, ?_⟩
      · simp [joinRoom, hs, hm]
      · simp [joinRoom, hs, hm]
      · intro _
        refine ⟨?_, ?_, ?_⟩
        · simp [joinRoom, hs, hm, pget_pset_self]
        · intro q hq
          simp [joinRoom, hs, hm, pget_pset_ne _ _ _ _ hq]
        · simp [joinRoom, handleJoinRoomFound, hs, hm]
  · refine ⟨?_, ?_, ?_⟩ <;> simp [joinRoom, handleJoinRoomFound, hs]

/-- C9 witness: a full room (2 players, `maxPlayers = 2`) rejects the join
with a `ROOM_FULL` answer and an unchanged player map. -/
theorem joinRoom_rejects_iff_witness :
    (joinRoom
      ⟨"ROOM02", "A", ⟨10, 10, true, 10, 2, 0, 1 / 10⟩,
       [("A", ⟨"A", "Alice", false, false, 0⟩), ("B", ⟨"B", "Bob", false, false, 0⟩)],
       ⟨[], [], [], []⟩, RoomStatus.waiting, 0, 9⟩ "D" "Dana").1 = false ∧
    handleJoinRoomFound
      ⟨"ROOM02", "A", ⟨10, 10, true, 10, 2, 0, 1 / 10⟩,
       [("A", ⟨"A", "Alice", false, false, 0⟩), ("B", ⟨"B", "Bob", false, false, 0⟩)],
       ⟨[], [], [], []⟩, RoomStatus.waiting, 0, 9⟩ "D" "Dana" =
      ⟨⟨"ROOM02", "A", ⟨10, 10, true, 10, 2, 0, 1 / 10⟩,
        [("A", ⟨"A", "Alice", false, false, 0⟩), ("B", ⟨"B", "Bob", false, false, 0⟩)],
        ⟨[], [], [], []⟩, RoomStatus.waiting, 0, 9⟩,
       [ServerMsg.errorRoomFull], false⟩ := by
  refine ⟨?_, ?_⟩
  · exact (joinRoom_rejects_iff _ "D" "Dana").1.mpr (Or.inr (by decide))
  · exact (((joinRoom_rejects_iff _ "D" "Dana").2.1
      ((joinRoom_rejects_iff _ "D" "Dana").1.mpr (Or.inr (by decide)))).2)

/-- C10: the step function neither adds nor removes snakes (the output's
key list equals the input's), and every snake dead in the input appears in
the output with identical body, direction, score, and alive flag (the whole
record is unchanged). -/
theorem step_preserves_ids_and_dead_snakes (state : GameState)
    (inputs : InputMap) (settings : RoomSettings) (rng : RNG)
    (boosts : BoostMap) :
    snakeKeys (step state inputs settings rng boosts).1 = snakeKeys state ∧
    ∀ id sn, lget state.snakes id = some sn → sn.alive = false →
      lget (step state inputs settings rng boosts).1.snakes id = some sn :=
  ⟨step_snakeKeys _ _ _ _ _,
   fun _ _ hg hd => step_lget_dead _ _ _ _ _ _ _ hd hg⟩

/-- C10 witness: on the mixed state the key list is preserved and the dead
snake `A` comes out exactly as it went in. -/
theorem step_preserves_ids_and_dead_snakes_witness :
    snakeKeys (step mixedState noInputs wrapSettings (mkRNG 3) noBoosts).1 =
      snakeKeys mixedState ∧
    lget (step mixedState noInputs wrapSettings (mkRNG 3) noBoosts).1.snakes "A" =
      some deadSnakeA :=
  ⟨(step_preserves_ids_and_dead_snakes mixedState noInputs wrapSettings (mkRNG 3) noBoosts).1,
   (step_preserves_ids_and_dead_snakes mixedState noInputs wrapSettings (mkRNG 3) noBoosts).2
     "A" deadSnakeA (by decide) (by decide)⟩

end Claims

section ClaimsTwo

theorem findEmptyPosition_none (st : GameState) (settings : RoomSettings)
    (rng r : RNG) (h : findEmptyPosition st settings rng = (none, r)) :
    emptyPositions st settings = [] := by
  unfold findEmptyPosition at h
  dsimp only at h
  split at h
  · rename_i he
    simpa using he
  · rename_i he
    exfalso
    have hlen : 0 < (emptyPositions st settings).length := by
      cases hemp : emptyPositions st settings with
      | nil => exact absurd (by simp [hemp]) he
      | cons a t => simp [hemp]
    have hidx : (rng.nextNat.1 % (emptyPositions st settings).length) <
        (emptyPositions st settings).length := Nat.mod_lt _ hlen
    have := congrArg Prod.fst h
    dsimp only at this
    rw [show (rng.choice (emptyPositions st settings)).1 =
        (emptyPositions st settings).get? (rng.nextNat.1 % (emptyPositions st settings).length) from rfl] at this
    rw [List.get?_eq_get hidx] at this
    exact Option.noConfusion this

theorem spawnFoodsAux_count (settings : RoomSettings) (fuel : Nat) :
    ∀ (st : GameState) (rng : RNG),
      settings.foodCount ≤ fuel + st.foods.length →
      ((settings.foodCount ≤ (spawnFoodsAux settings fuel st rng).1.foods.length ∨
        emptyPositions (spawnFoodsAux settings fuel st rng).1 settings = []) ∧
       (st.foods.length ≤ settings.foodCount →
        (spawnFoodsAux settings fuel st rng).1.foods.length ≤ settings.foodCount)) := by
  induction fuel with
  | zero =>
    intro st rng h
    exact ⟨Or.inl (by simpa using h), fun hle => hle⟩
  | succ n ih =>
    intro st rng h
    unfold spawnFoodsAux
    split
    · rename_i hlt
      split
      · rename_i pos rng1 heq
        have hlt2 : st.foods.length < settings.foodCount := hlt
        constructor
        · refine (ih _ _ ?_).1
          simp only [List.length_append, List.length_cons, List.length_nil]
          omega
        · intro hle
          refine (ih _ _ ?_).2 ?_ <;>
            simp only [List.length_append, List.length_cons, List.length_nil] <;>
            omega
      · rename_i heq
        have hlt2 : st.foods.length < settings.foodCount := hlt
        exact ⟨Or.inr (findEmptyPosition_none _ _ _ _ heq), fun _ => le_of_lt hlt2⟩
    · rename_i hge
      have hge2 : ¬ st.foods.length < settings.foodCount := hge
      exact ⟨Or.inl (Nat.le_of_not_lt hge2), fun hle => hle⟩

/-- C8 (amended): after every step the food count is at least the
configured target, or no empty cell remains in the resulting state; and
whenever the count carried into replenishment (after movement, collisions
and projectiles — deaths may have pushed it above the target) is at most
the target, the final count equals the target or no empty cell remains.
The loop always terminates without error (it is a total function). -/
theorem step_food_replenishment (state : GameState) (inputs : InputMap)
    (settings : RoomSettings) (rng : RNG) (boosts : BoostMap) :
    (settings.foodCount ≤ (step state inputs settings rng boosts).1.foods.length ∨
     emptyPositions (step state inputs settings rng boosts).1 settings = []) ∧
    ((projectilePhase settings (collisionPhase
        (postMoveState state inputs settings boosts))).foods.length ≤ settings.foodCount →
      (step state inputs settings rng boosts).1.foods.length = settings.foodCount ∨
      emptyPositions (step state inputs settings rng boosts).1 settings = []) := by
  unfold step
  have h := spawnFoodsAux_count settings
    (settings.foodCount - (projectilePhase settings (collisionPhase
      (postMoveState state inputs settings boosts))).foods.length)
    (projectilePhase settings (collisionPhase (postMoveState state inputs settings boosts)))
    rng (by omega)
  refine ⟨h.1, fun hle => ?_⟩
  rcases h.1 with h1 | h2
  · exact Or.inl (le_antisymm (h.2 hle) h1)
  · exact Or.inr h2

/-- C8 witness: a state already holding exactly the target number of foods
(one food, target one) steps to a state that again holds exactly the
target. -/
theorem step_food_replenishment_witness :
    (step (⟨[("A", mkSnake "A" [⟨5, 5⟩, ⟨4, 5⟩, ⟨3, 5⟩] .right)],
            [⟨⟨0, 9⟩, FoodKind.normal, 1⟩], [], []⟩ : GameState)
        noInputs oneFoodSettings (mkRNG 2) noBoosts).1.foods.length =
      oneFoodSettings.foodCount ∨
    emptyPositions (step (⟨[("A", mkSnake "A" [⟨5, 5⟩, ⟨4, 5⟩, ⟨3, 5⟩] .right)],
            [⟨⟨0, 9⟩, FoodKind.normal, 1⟩], [], []⟩ : GameState)
        noInputs oneFoodSettings (mkRNG 2) noBoosts).1 oneFoodSettings = [] :=
  (step_food_replenishment _ noInputs oneFoodSettings (mkRNG 2) noBoosts).2 (by decide)

theorem lget_some_mem (l : List (String × Snake)) (id : String) (v : Snake)
    (h : lget l id = some v) : id ∈ l.map Prod.fst := by
  induction l with
  | nil => exact absurd h (by simp [lget])
  | cons e rest ih =>
    obtain ⟨k, w⟩ := e
    simp only [lget] at h
    by_cases hk : k = id
    · simp [hk]
    · rw [if_neg hk] at h
      simpa using Or.inr (ih h)

theorem moveStep_lget_ne (settings : RoomSettings) (boosts : BoostMap)
    (st : GameState) (j id : String) (h : id ≠ j) :
    lget (moveStep settings boosts st j).snakes id = lget st.snakes id := by
  unfold moveStep
  cases lget st.snakes j with
  | none => rfl
  | some sn =>
    dsimp only
    split
    · exact moveSnake_lget_ne _ _ _ _ _ h
    · rfl

theorem moveStep_wall_kill (settings : RoomSettings) (boosts : BoostMap)
    (st : GameState) (i : String) (si : Snake)
    (hg : lget st.snakes i = some si) (ha : si.alive = true)
    (hw : settings.wrapEnabled = false)
    (hoob : outOfBoundsPos (movePosition si.body.headI si.direction settings) settings = true) :
    moveStep settings boosts st i = killSnake st i := by
  unfold moveStep
  rw [hg]
  dsimp only
  rw [if_pos ha]
  unfold moveSnake moveSnakeOnce
  rw [hg]
  simp [hw, hoob]

theorem collideSnake_dead_eq (st : GameState) (i : String) (sn : Snake)
    (hg : lget st.snakes i = some sn) (hd : sn.alive = false) :
    collideSnake st i = st := by
  unfold collideSnake
  rw [hg]
  dsimp only
  simp [hd]

section ClaimC7

/-- The single-snake state at the left edge of the grid, facing left. -/
def wrapEdgeState : GameState :=
  ⟨[("A", mkSnake "A" [⟨0, 5⟩, ⟨1, 5⟩, ⟨2, 5⟩] .left)], [], [], []⟩

/-- C7: movement boundary handling is controlled by `wrapEnabled`.
With wrap enabled a head at `x = 0` moving left lands at `x = width - 1`,
same `y` (first conjunct, for any in-grid `y`); any in-grid position stays
in-grid after a wrapped move (second conjunct); in the concrete edge
scenario the snake remains alive with head `(9,5)` (third conjunct).  With
wrap disabled, any living snake whose computed new head is out of the grid
dies that tick and exactly one death event is emitted for it (fourth
conjunct). -/
theorem movement_boundary_wrap_law :
    (∀ (p : Position) (s : RoomSettings), s.wrapEnabled = true →
      0 < s.gridWidth → p.x = 0 → 0 ≤ p.y → p.y < s.gridHeight →
      movePosition p .left s = ⟨(s.gridWidth : Int) - 1, p.y⟩) ∧
    (∀ (p : Position) (d : Direction) (s : RoomSettings), s.wrapEnabled = true →
      0 ≤ p.x → p.x < s.gridWidth → 0 ≤ p.y → p.y < s.gridHeight →
      outOfBoundsPos (movePosition p d s) s = false) ∧
    (aliveOf (step wrapEdgeState noInputs wrapSettings (mkRNG 1) noBoosts).1 "A" = some true ∧
     (lget (step wrapEdgeState noInputs wrapSettings (mkRNG 1) noBoosts).1.snakes "A").map
        (fun s => s.body.headI) = some ⟨9, 5⟩) ∧
    (∀ (state : GameState) (inputs : InputMap) (settings : RoomSettings)
        (rng : RNG) (boosts : BoostMap) (i : String) (si : Snake),
      (snakeKeys state).Nodup →
      lget (preMoveState state inputs).snakes i = some si →
      si.alive = true →
      settings.wrapEnabled = false →
      outOfBoundsPos (movePosition si.body.headI si.direction settings) settings = true →
      aliveOf (step state inputs settings rng boosts).1 i = some false ∧
      countDeathEvents i (step state inputs settings rng boosts).1 = 1) := by
  refine ⟨?_, ?_, by decide, ?_⟩
  · intro p s hw hg hx hy0 hyh
    unfold movePosition
    dsimp only
    rw [if_pos hw, hx]
    simp only [dirDX, dirDY]
    have hxcalc : Int.tmod (0 + -1 + s.gridWidth) s.gridWidth = (s.gridWidth : Int) - 1 := by
      have h1 : (0 : Int) + -1 + s.gridWidth = (s.gridWidth : Int) - 1 := by ring
      rw [h1, Int.tmod_eq_emod (by omega) (by omega)]
      exact Int.emod_eq_of_lt (by omega) (by omega)
    have hycalc : Int.tmod (p.y + 0 + s.gridHeight) s.gridHeight = p.y := by
      have h1 : p.y + 0 + (s.gridHeight : Int) = p.y + (s.gridHeight : Int) * 1 := by ring
      rw [h1, Int.tmod_eq_emod (by omega) (by omega), Int.add_mul_emod_self_left]
      exact Int.emod_eq_of_lt hy0 hyh
    rw [hxcalc, hycalc]
  · intro p d s hw hx0 hxw hy0 hyh
    have hw0 : (0 : Int) < s.gridWidth := by omega
    have hh0 : (0 : Int) < s.gridHeight := by omega
    unfold movePosition outOfBoundsPos
    dsimp only
    rw [if_pos hw]
    dsimp only
    cases d <;>
    · simp only [dirDX, dirDY]
      simp only [Bool.or_eq_false_iff, decide_eq_false_iff_not, not_lt, not_le]
      rw [Int.tmod_eq_emod (by omega) (by omega), Int.tmod_eq_emod (by omega) (by omega)]
      exact ⟨⟨⟨Int.emod_nonneg _ (by omega), Int.emod_lt_of_pos _ hw0⟩,
        Int.emod_nonneg _ (by omega)⟩, Int.emod_lt_of_pos _ hh0⟩
  · intro state inputs settings rng boosts i si hnd hg ha hw hoob
    have hkeys : snakeKeys (preMoveState state inputs) = snakeKeys state := by
      show (dirPhase inputs state.snakes).map Prod.fst = _
      exact snakeKeys_dirPhase inputs state.snakes
    have hmem : i ∈ snakeKeys (preMoveState state inputs) :=
      lget_some_mem _ _ _ hg
    obtain ⟨K1, K2, hsplit⟩ := List.append_of_mem hmem
    have hnd2 : (K1 ++ i :: K2).Nodup := by
      rw [← hsplit, hkeys]; exact hnd
    have hiK1 : i ∉ K1 := by
      rcases List.nodup_append.mp hnd2 with ⟨_, _, hdisj⟩
      exact fun hmem1 => hdisj hmem1 (List.mem_cons_self _ _)
    have hiK2 : i ∉ K2 := by
      rcases List.nodup_append.mp hnd2 with ⟨_, hnd3, _⟩
      exact (List.nodup_cons.mp hnd3).1
    -- movement phase: fold over K1, then the wall kill at i, then K2
    have hmove : lget (movePhase settings boosts (preMoveState state inputs)).snakes i =
          some { si with alive := false } ∧
        countDeathEvents i (movePhase settings boosts (preMoveState state inputs)) = 1 := by
      unfold movePhase
      rw [show (preMoveState state inputs).snakes.map Prod.fst = K1 ++ i :: K2 from hsplit]
      rw [List.foldl_append, List.foldl_cons]
      have h1 : lget (List.foldl (moveStep settings boosts) (preMoveState state inputs) K1).snakes i = some si ∧
          countDeathEvents i (List.foldl (moveStep settings boosts) (preMoveState state inputs) K1) = 0 := by
        refine foldl_invariant _
          (fun acc : GameState => lget acc.snakes i = some si ∧ countDeathEvents i acc = 0)
          _ ?_ _ ⟨hg, rfl⟩
        intro acc j hj hp
        have hij : i ≠ j := fun hh => hiK1 (hh ▸ hj)
        exact ⟨by rw [moveStep_lget_ne _ _ _ _ _ hij]; exact hp.1,
          by rw [countDeath_moveStep_ne _ _ _ _ _ hij]; exact hp.2⟩
      rw [moveStep_wall_kill settings boosts _ i si h1.1 ha hw hoob]
      refine foldl_invariant _
        (fun acc : GameState => lget acc.snakes i = some { si with alive := false } ∧
          countDeathEvents i acc = 1) _ ?_ _ ?_
      · intro acc j hj hp
        have hij : i ≠ j := fun hh => hiK2 (hh ▸ hj)
        exact ⟨moveStep_lget_dead _ _ _ _ _ _ rfl hp.1,
          by rw [countDeath_moveStep_ne _ _ _ _ _ hij]; exact hp.2⟩
      · constructor
        · rw [killSnake_lget_self, h1.1]
          rfl
        · rw [countDeath_killSnake_self _ _ _ h1.1, h1.2]
    -- collision phase
    have hcoll : lget (collisionPhase (movePhase settings boosts (preMoveState state inputs))).snakes i =
          some { si with alive := false } ∧
        countDeathEvents i (collisionPhase (movePhase settings boosts (preMoveState state inputs))) = 1 := by
      unfold collisionPhase
      refine foldl_invariant _
        (fun acc : GameState => lget acc.snakes i = some { si with alive := false } ∧
          countDeathEvents i acc = 1) _ ?_ _ hmove
      intro acc j _ hp
      by_cases hij : i = j
      · subst hij
        rw [collideSnake_dead_eq acc i _ hp.1 rfl]
        exact hp
      · exact ⟨by rw [collideSnake_lget_ne _ _ _ hij]; exact hp.1,
          by rw [countDeath_collideSnake_ne _ _ _ hij]; exact hp.2⟩
    -- projectile and spawn phases
    unfold step postMoveState
    constructor
    · unfold aliveOf
      have h4 : lget (spawnFoods settings (projectilePhase settings (collisionPhase
          (movePhase settings boosts (preMoveState state inputs)))) rng).1.snakes i =
          some { si with alive := false } := by
        have h3 := projectilePhase_lget_dead settings _ i _ rfl hcoll.1
        show lget (spawnFoods settings _ rng).1.snakes i = _
        have hs := spawnFoods_snakes settings (projectilePhase settings (collisionPhase
          (movePhase settings boosts (preMoveState state inputs)))) rng
        rw [show (spawnFoods settings (projectilePhase settings (collisionPhase
          (movePhase settings boosts (preMoveState state inputs)))) rng).1.snakes =
          (projectilePhase settings (collisionPhase
          (movePhase settings boosts (preMoveState state inputs)))).snakes from hs]
        exact h3
      rw [h4]
      rfl
    · rw [countDeath_spawnFoods]
      rw [countDeath_projectilePhase_dead settings _ i { si with alive := false } rfl hcoll.1]
      exact hcoll.2

/-- C7 witness: the no-wrap conjunct applied to the concrete edge state
(snake at `x = 0` moving left with wrap disabled): it dies with exactly one
death event. -/
theorem movement_boundary_wrap_law_witness :
    aliveOf (step wrapEdgeState noInputs noWrapSettings (mkRNG 1) noBoosts).1 "A" = some false ∧
    countDeathEvents "A" (step wrapEdgeState noInputs noWrapSettings (mkRNG 1) noBoosts).1 = 1 :=
  movement_boundary_wrap_law.2.2.2 wrapEdgeState noInputs noWrapSettings (mkRNG 1) noBoosts
    "A" (mkSnake "A" [⟨0, 5⟩, ⟨1, 5⟩, ⟨2, 5⟩] .left)
    (by decide) (by decide) (by decide) (by decide) (by decide)

end ClaimC7

section ClaimC3

theorem headI_mem_of_ne_nil (l : List Position) (h : l ≠ []) : l.headI ∈ l := by
  cases l with
  | nil => exact absurd rfl h
  | cons a t => simp [List.headI]

theorem collideOtherStep_dead (id : String) (hd : Position) (acc : GameState)
    (oid : String) (s' : Snake) (hds : s'.alive = false)
    (hg : lget acc.snakes id = some s') :
    lget (collideOtherStep id hd acc oid).snakes id = some s' := by
  unfold collideOtherStep
  split
  · exact hg
  · cases lget acc.snakes oid with
    | none => exact hg
    | some osn =>
      dsimp only
      split
      · exact killSnake_lget_dead _ _ _ _ hds hg
      · exact hg

theorem collideOtherStep_hits (i oid : String) (hd : Position) (a : GameState)
    (si sj : Snake) (hoid : oid ≠ i) (h1 : lget a.snakes i = some si)
    (h2 : lget a.snakes oid = some sj) (haj : sj.alive = true)
    (hmem : hd ∈ sj.body) :
    lget (collideOtherStep i hd a oid).snakes i = some { si with alive := false } := by
  unfold collideOtherStep
  rw [if_neg hoid, h2]
  dsimp only
  rw [if_pos (by simp [haj, hmem])]
  rw [killSnake_lget_self, h1]
  rfl

theorem collideOthers_kills (acc : GameState) (i j : String) (hd : Position)
    (si sj : Snake) (hij : j ≠ i)
    (hgi : lget acc.snakes i = some si)
    (hgj : lget acc.snakes j = some sj) (haj : sj.alive = true)
    (hmem : hd ∈ sj.body) :
    ∃ s', lget (collideOthers i hd acc).snakes i = some s' ∧ s'.alive = false := by
  unfold collideOthers
  obtain ⟨L1, L2, hsplitL⟩ := List.append_of_mem (lget_some_mem _ _ _ hgj)
  rw [hsplitL, List.foldl_append, List.foldl_cons]
  have hmid : ∃ s', lget (collideOtherStep i hd (L1.foldl (collideOtherStep i hd) acc) j).snakes i =
      some s' ∧ s'.alive = false := by
    have hQ := foldl_invariant (collideOtherStep i hd) (fun a : GameState =>
        (∃ s', lget a.snakes i = some s' ∧ s'.alive = false) ∨
        (lget a.snakes i = some si ∧ lget a.snakes j = some sj)) L1 ?_ acc
        (Or.inr ⟨hgi, hgj⟩)
    · rcases hQ with ⟨s', hs', hds'⟩ | ⟨h1, h2⟩
      · exact ⟨s', collideOtherStep_dead _ _ _ _ _ hds' hs', hds'⟩
      · exact ⟨{ si with alive := false },
          collideOtherStep_hits i j hd _ si sj hij h1 h2 haj hmem, rfl⟩
    · intro a' oid _ hq
      rcases hq with ⟨s', hs', hds'⟩ | ⟨h1, h2⟩
      · exact Or.inl ⟨s', collideOtherStep_dead _ _ _ _ _ hds' hs', hds'⟩
      · unfold collideOtherStep
        split
        · exact Or.inr ⟨h1, h2⟩
        · cases hoid : lget a'.snakes oid with
          | none => exact Or.inr ⟨h1, h2⟩
          | some osn =>
            dsimp only
            split
            · refine Or.inl ⟨{ si with alive := false }, ?_, rfl⟩
              rw [killSnake_lget_self, h1]
              rfl
            · exact Or.inr ⟨h1, h2⟩
  obtain ⟨s', hs', hds'⟩ := hmid
  refine foldl_invariant _ (fun a : GameState =>
    ∃ t, lget a.snakes i = some t ∧ t.alive = false) _ ?_ _ ⟨s', hs', hds'⟩
  intro a' oid _ hp
  obtain ⟨t, ht, hdt⟩ := hp
  exact ⟨t, collideOtherStep_dead _ _ _ _ _ hdt ht, hdt⟩

theorem collideSnake_kills_self_or_other (acc : GameState) (i j : String)
    (si sj : Snake) (hij : j ≠ i)
    (hgi : lget acc.snakes i = some si) (hai : si.alive = true)
    (hgj : lget acc.snakes j = some sj) (haj : sj.alive = true)
    (hbj : sj.body ≠ []) (hheads : si.body.headI = sj.body.headI) :
    ∃ s', lget (collideSnake acc i).snakes i = some s' ∧ s'.alive = false := by
  unfold collideSnake
  rw [hgi]
  dsimp only
  rw [if_neg (by simp [hai])]
  split
  · refine ⟨{ si with alive := false }, ?_, rfl⟩
    rw [killSnake_lget_self, hgi]
    rfl
  · exact collideOthers_kills acc i j si.body.headI si sj hij hgi hgj haj
      (by rw [hheads]; exact headI_mem_of_ne_nil _ hbj)

/-- C3 (amended): when the post-movement heads of two living snakes lie on
the same cell, the snake processed earlier in map order always dies that
tick — the later one is not killed on its account (the collision pass skips
snakes already marked dead), so after the step at most one of the two is
alive.  Processing order, not symmetry, decides the outcome. -/
theorem collision_first_processed_dies (state : GameState) (inputs : InputMap)
    (settings : RoomSettings) (rng : RNG) (boosts : BoostMap)
    (i j : String) (si sj : Snake) (K1 K2 : List String)
    (hnd : (snakeKeys state).Nodup)
    (hsplit : snakeKeys state = K1 ++ i :: K2) (hjK2 : j ∈ K2)
    (hgi : lget (postMoveState state inputs settings boosts).snakes i = some si)
    (hai : si.alive = true)
    (hgj : lget (postMoveState state inputs settings boosts).snakes j = some sj)
    (haj : sj.alive = true)
    (hbj : sj.body ≠ [])
    (hheads : si.body.headI = sj.body.headI) :
    aliveOf (step state inputs settings rng boosts).1 i = some false ∧
    ¬ (aliveOf (step state inputs settings rng boosts).1 i = some true ∧
       aliveOf (step state inputs settings rng boosts).1 j = some true) := by
  have hndm : (K1 ++ i :: K2).Nodup := by
    rw [← hsplit]; exact hnd
  have hiK1 : i ∉ K1 := by
    rcases List.nodup_append.mp hndm with ⟨_, _, hdisj⟩
    exact fun hmem1 => hdisj hmem1 (List.mem_cons_self _ _)
  have hij : j ≠ i := by
    rcases List.nodup_append.mp hndm with ⟨_, hnd3, _⟩
    exact fun hh => (List.nodup_cons.mp hnd3).1 (hh ▸ hjK2)
  have hjK1 : j ∉ K1 := by
    rcases List.nodup_append.mp hndm with ⟨_, _, hdisj⟩
    exact fun hmem1 => hdisj hmem1 (List.mem_cons_of_mem _ hjK2)
  have hkeysm : snakeKeys (postMoveState state inputs settings boosts) = K1 ++ i :: K2 := by
    unfold postMoveState
    rw [movePhase_snakeKeys, ← hsplit]
    show (dirPhase inputs state.snakes).map Prod.fst = _
    exact snakeKeys_dirPhase inputs state.snakes
  -- the collision phase kills i
  have hdead : ∃ s', lget (collisionPhase (postMoveState state inputs settings boosts)).snakes i =
      some s' ∧ s'.alive = false := by
    unfold collisionPhase
    rw [show (postMoveState state inputs settings boosts).snakes.map Prod.fst = K1 ++ i :: K2 from hkeysm]
    rw [List.foldl_append, List.foldl_cons]
    have h1 : lget (K1.foldl collideSnake (postMoveState state inputs settings boosts)).snakes i = some si ∧
        lget (K1.foldl collideSnake (postMoveState state inputs settings boosts)).snakes j = some sj := by
      refine foldl_invariant _ (fun acc : GameState =>
        lget acc.snakes i = some si ∧ lget acc.snakes j = some sj) _ ?_ _ ⟨hgi, hgj⟩
      intro acc k hk hp
      have hki : i ≠ k := fun hh => hiK1 (hh ▸ hk)
      have hkj : j ≠ k := fun hh => hjK1 (hh ▸ hk)
      exact ⟨by rw [collideSnake_lget_ne _ _ _ hki]; exact hp.1,
        by rw [collideSnake_lget_ne _ _ _ hkj]; exact hp.2⟩
    obtain ⟨s', hs', hds'⟩ :=
      collideSnake_kills_self_or_other _ i j si sj hij h1.1 hai h1.2 haj hbj hheads
    refine foldl_invariant _ (fun acc : GameState =>
      ∃ t, lget acc.snakes i = some t ∧ t.alive = false) _ ?_ _ ⟨s', hs', hds'⟩
    intro acc k _ hp
    obtain ⟨t, ht, hdt⟩ := hp
    exact ⟨t, collideSnake_lget_dead _ _ _ _ hdt ht, hdt⟩
  obtain ⟨s', hs', hds'⟩ := hdead
  have hout : lget (step state inputs settings rng boosts).1.snakes i = some s' := by
    unfold step postMoveState
    have hsp := spawnFoods_snakes settings (projectilePhase settings (collisionPhase
      (movePhase settings boosts (preMoveState state inputs)))) rng
    rw [show (spawnFoods settings (projectilePhase settings (collisionPhase
      (movePhase settings boosts (preMoveState state inputs)))) rng).1.snakes =
      (projectilePhase settings (collisionPhase
      (movePhase settings boosts (preMoveState state inputs)))).snakes from hsp]
    exact projectilePhase_lget_dead _ _ _ _ hds' hs'
  constructor
  · unfold aliveOf
    rw [hout]
    show some s'.alive = some false
    rw [hds']
  · intro hcon
    obtain ⟨hA, _⟩ := hcon
    unfold aliveOf at hA
    rw [hout] at hA
    simp [hds'] at hA

/-- C3 witness: the amended theorem applied to the concrete head-on
scenario (snake `A` first in map order, both heads on `(6,5)`). -/
theorem collision_first_processed_dies_witness :
    aliveOf (step headOnState noInputs wrapSettings (mkRNG 1) noBoosts).1 "A" = some false ∧
    ¬ (aliveOf (step headOnState noInputs wrapSettings (mkRNG 1) noBoosts).1 "A" = some true ∧
       aliveOf (step headOnState noInputs wrapSettings (mkRNG 1) noBoosts).1 "B" = some true) :=
  collision_first_processed_dies headOnState noInputs wrapSettings (mkRNG 1) noBoosts
    "A" "B" (mkSnake "A" [⟨6, 5⟩, ⟨5, 5⟩, ⟨4, 5⟩] .right)
    (mkSnake "B" [⟨6, 5⟩, ⟨7, 5⟩, ⟨8, 5⟩] .left) [] ["B"]
    (by decide) (by decide) (by decide) (by decide) (by decide) (by decide)
    (by decide) (by decide) (by decide)

end ClaimC3

section EventExtension

theorem extend_trans {a b c : List GameEvent} (h1 : ∃ t, b = a ++ t)
    (h2 : ∃ t, c = b ++ t) : ∃ t, c = a ++ t := by
  obtain ⟨t1, rfl⟩ := h1
  obtain ⟨t2, rfl⟩ := h2
  exact ⟨t1 ++ t2, List.append_assoc _ _ _⟩

theorem extend_refl (a : List GameEvent) : ∃ t, a = a ++ t :=
  ⟨[], (List.append_nil _).symm⟩

theorem mem_of_extend {st st' : GameState} (h : ∃ t, st'.events = st.events ++ t)
    {e : GameEvent} (he : e ∈ st.events) : e ∈ st'.events := by
  obtain ⟨t, ht⟩ := h
  rw [ht]
  exact List.mem_append_left _ he

theorem countDeath_mono_of_extend {st st' : GameState} (i : String)
    (h : ∃ t, st'.events = st.events ++ t) :
    countDeathEvents i st ≤ countDeathEvents i st' := by
  obtain ⟨t, ht⟩ := h
  rw [countDeathEvents_def, countDeathEvents_def, ht, countDeath_append]
  omega

theorem moveSnakeOnce_events (settings : RoomSettings) (j : String)
    (st : GameState) :
    ∃ t, (moveSnakeOnce settings j st).1.events = st.events ++ t := by
  unfold moveSnakeOnce
  cases lget st.snakes j with
  | none => exact extend_refl _
  | some sn =>
    dsimp only
    split
    · exact killSnake_events _ _
    · split <;> exact ⟨_, rfl⟩

theorem moveSnake_events (settings : RoomSettings) (boosts : BoostMap)
    (j : String) (st : GameState) :
    ∃ t, (moveSnake settings boosts j st).events = st.events ++ t := by
  unfold moveSnake
  dsimp only
  split
  · exact extend_trans (moveSnakeOnce_events _ _ _) (moveSnakeOnce_events _ _ _)
  · exact moveSnakeOnce_events _ _ _

theorem moveStep_events (settings : RoomSettings) (boosts : BoostMap)
    (st : GameState) (j : String) :
    ∃ t, (moveStep settings boosts st j).events = st.events ++ t := by
  unfold moveStep
  cases lget st.snakes j with
  | none => exact extend_refl _
  | some sn =>
    dsimp only
    split
    · exact moveSnake_events _ _ _ _
    · exact extend_refl _

theorem collideOtherStep_events (id : String) (hd : Position) (acc : GameState)
    (oid : String) :
    ∃ t, (collideOtherStep id hd acc oid).events = acc.events ++ t := by
  unfold collideOtherStep
  split
  · exact extend_refl _
  · cases lget acc.snakes oid with
    | none => exact extend_refl _
    | some osn =>
      dsimp only
      split
      · exact killSnake_events _ _
      · exact extend_refl _

theorem collideOthers_events (id : String) (hd : Position) (st : GameState) :
    ∃ t, (collideOthers id hd st).events = st.events ++ t := by
  unfold collideOthers
  refine foldl_invariant _ (fun acc : GameState => ∃ t, acc.events = st.events ++ t)
    _ ?_ _ (extend_refl _)
  intro acc oid _ hp
  exact extend_trans hp (collideOtherStep_events _ _ _ _)

theorem collideSnake_events (st : GameState) (j : String) :
    ∃ t, (collideSnake st j).events = st.events ++ t := by
  unfold collideSnake
  cases lget st.snakes j with
  | none => exact extend_refl _
  | some sn =>
    dsimp only
    split
    · exact extend_refl _
    · split
      · exact killSnake_events _ _
      · exact collideOthers_events _ _ _

theorem projectileHitSnake_events (pos : Position) (owner : String)
    (acc : GameState × Bool) (sid : String) :
    ∃ t, (projectileHitSnake pos owner acc sid).1.events = acc.1.events ++ t := by
  unfold projectileHitSnake
  cases lget acc.1.snakes sid with
  | none => exact extend_refl _
  | some sn =>
    dsimp only
    split
    · refine extend_trans ?_ ⟨_, rfl⟩
      split
      · exact killSnake_events _ _
      · exact extend_refl _
    · exact extend_refl _

theorem stepProjectile_events (settings : RoomSettings)
    (acc : GameState × List Projectile) (p : Projectile) :
    ∃ t, (stepProjectile settings acc p).1.events = acc.1.events ++ t := by
  unfold stepProjectile
  dsimp only
  split
  · exact extend_refl _
  · unfold projectileHit
    refine foldl_invariant _
      (fun a : GameState × Bool => ∃ t, a.1.events = acc.1.events ++ t) _ ?_ _ (extend_refl _)
    intro a sid _ hp
    exact extend_trans hp (projectileHitSnake_events _ _ _ _)

theorem movePhase_events (settings : RoomSettings) (boosts : BoostMap)
    (st : GameState) :
    ∃ t, (movePhase settings boosts st).events = st.events ++ t := by
  unfold movePhase
  refine foldl_invariant _ (fun acc : GameState => ∃ t, acc.events = st.events ++ t)
    _ ?_ _ (extend_refl _)
  intro acc j _ hp
  exact extend_trans hp (moveStep_events _ _ _ _)

theorem collisionPhase_events (st : GameState) :
    ∃ t, (collisionPhase st).events = st.events ++ t := by
  unfold collisionPhase
  refine foldl_invariant _ (fun acc : GameState => ∃ t, acc.events = st.events ++ t)
    _ ?_ _ (extend_refl _)
  intro acc j _ hp
  exact extend_trans hp (collideSnake_events _ _)

theorem projectilePhase_events (settings : RoomSettings) (st : GameState) :
    ∃ t, (projectilePhase settings st).events = st.events ++ t := by
  unfold projectilePhase
  dsimp only
  refine foldl_invariant _
    (fun a : GameState × List Projectile => ∃ t, a.1.events = st.events ++ t) _ ?_ _ (extend_refl _)
  intro a p _ hp
  exact extend_trans hp (stepProjectile_events _ _ _)

theorem spawnFoodsAux_events (settings : RoomSettings) (fuel : Nat) :
    ∀ (st : GameState) (rng : RNG),
      ∃ t, (spawnFoodsAux settings fuel st rng).1.events = st.events ++ t := by
  induction fuel with
  | zero => intro st rng; exact extend_refl _
  | succ n ih =>
    intro st rng
    unfold spawnFoodsAux
    split
    · split
      · rename_i pos rng1 heq
        exact extend_trans (⟨_, rfl⟩ :
          ∃ t, ({ st with foods := _, events := st.events ++ [spawnEvent pos _] } : GameState).events = st.events ++ t)
          (ih _ _)
      · exact extend_refl _
    · exact extend_refl _

theorem step_events_extend (state : GameState) (inputs : InputMap)
    (settings : RoomSettings) (rng : RNG) (boosts : BoostMap) :
    ∃ t, (step state inputs settings rng boosts).1.events =
      (postMoveState state inputs settings boosts).events ++ t := by
  unfold step
  exact extend_trans (extend_trans (collisionPhase_events _) (projectilePhase_events _ _))
    (spawnFoodsAux_events _ _ _ _)

end EventExtension

section ClaimC5

theorem lget_updateSnake_alive (l : List (String × Snake)) (i : String)
    (f : Snake → Snake) (hf : ∀ s, (f s).alive = s.alive) (s : Snake)
    (hg : lget l i = some s) (ha : s.alive = true) :
    ∃ s2, lget (updateSnake i f l) i = some s2 ∧ s2.alive = true :=
  ⟨f s, by rw [lget_updateSnake_self, hg]; rfl, by rw [hf]; exact ha⟩

theorem moveSnakeOnce_alive_or_death (settings : RoomSettings) (i : String)
    (st : GameState) (s : Snake) (hg : lget st.snakes i = some s)
    (ha : s.alive = true) :
    1 ≤ countDeathEvents i (moveSnakeOnce settings i st).1 ∨
    (∃ s2, lget (moveSnakeOnce settings i st).1.snakes i = some s2 ∧ s2.alive = true) := by
  unfold moveSnakeOnce
  rw [hg]
  dsimp only
  split
  · left
    rw [countDeath_killSnake_self _ _ _ hg]
    omega
  · right
    split
    · dsimp only
      refine lget_updateSnake_alive _ _ _ ?_ s hg ha
      intro s2
      rfl
    · dsimp only
      refine lget_updateSnake_alive _ _ _ ?_ s hg ha
      intro s2
      rfl

theorem moveStep_alive_or_death (settings : RoomSettings) (boosts : BoostMap)
    (st : GameState) (j i : String)
    (h : 1 ≤ countDeathEvents i st ∨
      (∃ s, lget st.snakes i = some s ∧ s.alive = true)) :
    1 ≤ countDeathEvents i (moveStep settings boosts st j) ∨
    (∃ s, lget (moveStep settings boosts st j).snakes i = some s ∧ s.alive = true) := by
  rcases h with hc | ⟨s, hg, ha⟩
  · exact Or.inl (le_trans hc (countDeath_mono_of_extend i (moveStep_events _ _ _ _)))
  · by_cases hij : i = j
    · subst hij
      unfold moveStep
      rw [hg]
      dsimp only
      rw [if_pos ha]
      unfold moveSnake
      dsimp only
      split
      · rcases moveSnakeOnce_alive_or_death settings i st s hg ha with hc1 | ⟨s2, hg2, ha2⟩
        · exact Or.inl (le_trans hc1 (countDeath_mono_of_extend i (moveSnakeOnce_events _ _ _)))
        · rcases moveSnakeOnce_alive_or_death settings i _ s2 hg2 ha2 with hc2 | ⟨s3, hg3, ha3⟩
          · exact Or.inl hc2
          · exact Or.inr ⟨s3, hg3, ha3⟩
      · exact moveSnakeOnce_alive_or_death settings i st s hg ha
    · right
      rw [moveStep_lget_ne _ _ _ _ _ hij]
      exact ⟨s, hg, ha⟩

theorem collideOtherStep_alive_or_death (id : String) (hd : Position)
    (acc : GameState) (oid : String) (i : String)
    (h : 1 ≤ countDeathEvents i acc ∨
      (∃ s, lget acc.snakes i = some s ∧ s.alive = true)) :
    1 ≤ countDeathEvents i (collideOtherStep id hd acc oid) ∨
    (∃ s, lget (collideOtherStep id hd acc oid).snakes i = some s ∧ s.alive = true) := by
  rcases h with hc | ⟨s, hg, ha⟩
  · exact Or.inl (le_trans hc (countDeath_mono_of_extend i (collideOtherStep_events _ _ _ _)))
  · by_cases hii : i = id
    · subst hii
      unfold collideOtherStep
      split
      · exact Or.inr ⟨s, hg, ha⟩
      · cases lget acc.snakes oid with
        | none => exact Or.inr ⟨s, hg, ha⟩
        | some osn =>
          dsimp only
          split
          · left
            rw [countDeath_killSnake_self _ _ _ hg]
            omega
          · exact Or.inr ⟨s, hg, ha⟩
    · right
      refine ⟨s, ?_, ha⟩
      unfold collideOtherStep
      split
      · exact hg
      · cases lget acc.snakes oid with
        | none => exact hg
        | some osn =>
          dsimp only
          split
          · rw [killSnake_lget_ne _ _ _ hii]
            exact hg
          · exact hg

theorem collideSnake_alive_or_death (st : GameState) (j i : String)
    (h : 1 ≤ countDeathEvents i st ∨
      (∃ s, lget st.snakes i = some s ∧ s.alive = true)) :
    1 ≤ countDeathEvents i (collideSnake st j) ∨
    (∃ s, lget (collideSnake st j).snakes i = some s ∧ s.alive = true) := by
  rcases h with hc | ⟨s, hg, ha⟩
  · exact Or.inl (le_trans hc (countDeath_mono_of_extend i (collideSnake_events _ _)))
  · by_cases hij : i = j
    · subst hij
      unfold collideSnake
      rw [hg]
      dsimp only
      rw [if_neg (by simp [ha])]
      split
      · left
        rw [countDeath_killSnake_self _ _ _ hg]
        omega
      · unfold collideOthers
        refine foldl_invariant _ (fun acc : GameState =>
          1 ≤ countDeathEvents i acc ∨
          (∃ s, lget acc.snakes i = some s ∧ s.alive = true)) _ ?_ _ (Or.inr ⟨s, hg, ha⟩)
        intro acc oid _ hp
        exact collideOtherStep_alive_or_death _ _ _ _ _ hp
    · right
      rw [collideSnake_lget_ne _ _ _ hij]
      exact ⟨s, hg, ha⟩

theorem projectileHitSnake_alive_or_death (pos : Position) (owner : String)
    (acc : GameState × Bool) (sid i : String)
    (h : 1 ≤ countDeathEvents i acc.1 ∨
      (∃ s, lget acc.1.snakes i = some s ∧ s.alive = true)) :
    1 ≤ countDeathEvents i (projectileHitSnake pos owner acc sid).1 ∨
    (∃ s, lget (projectileHitSnake pos owner acc sid).1.snakes i = some s ∧ s.alive = true) := by
  rcases h with hc | ⟨s, hg, ha⟩
  · exact Or.inl (le_trans hc (countDeath_mono_of_extend i (projectileHitSnake_events _ _ _ _)))
  · unfold projectileHitSnake
    by_cases hii : i = sid
    · subst hii
      rw [hg]
      dsimp only
      split
      · split
        · left
          rw [countDeathEvents_def]
          show 1 ≤ ((_ ++ [hitEvent i pos _]).filter _).length
          rw [countDeath_append]
          have h1 := countDeath_killSnake_self _ _ _ hg
          rw [countDeathEvents_def, countDeathEvents_def] at h1
          rw [h1]
          omega
        · right
          dsimp only
          refine lget_updateSnake_alive _ _ _ ?_ s hg ha
          intro s2
          rfl
      · exact Or.inr ⟨s, hg, ha⟩
    · right
      refine ⟨s, ?_, ha⟩
      cases lget acc.1.snakes sid with
      | none => exact hg
      | some osn =>
        dsimp only
        split
        · show lget ((if _ then killSnake acc.1 sid else _) : GameState).snakes i = some s
          split
          · rw [killSnake_lget_ne _ _ _ hii]
            exact hg
          · rw [lget_updateSnake_ne acc.1.snakes sid i _ hii]
            exact hg
        · exact hg

theorem stepProjectile_alive_or_death (settings : RoomSettings)
    (acc : GameState × List Projectile) (p : Projectile) (i : String)
    (h : 1 ≤ countDeathEvents i acc.1 ∨
      (∃ s, lget acc.1.snakes i = some s ∧ s.alive = true)) :
    1 ≤ countDeathEvents i (stepProjectile settings acc p).1 ∨
    (∃ s, lget (stepProjectile settings acc p).1.snakes i = some s ∧ s.alive = true) := by
  unfold stepProjectile
  dsimp only
  split
  · exact h
  · unfold projectileHit
    refine foldl_invariant _ (fun a : GameState × Bool =>
      1 ≤ countDeathEvents i a.1 ∨
      (∃ s, lget a.1.snakes i = some s ∧ s.alive = true)) _ ?_ _ h
    intro a sid _ hp
    exact projectileHitSnake_alive_or_death _ _ _ _ _ hp

/-- Whenever a snake alive in the input is dead in the output of `step`, at
least one death event for it is carried by the output events. -/
theorem step_death_event_on_death (state : GameState) (inputs : InputMap)
    (settings : RoomSettings) (rng : RNG) (boosts : BoostMap) (i : String)
    (s0 : Snake) (hg : lget state.snakes i = some s0) (ha : s0.alive = true)
    (hd : aliveOf (step state inputs settings rng boosts).1 i = some false) :
    1 ≤ countDeathEvents i (step state inputs settings rng boosts).1 := by
  have hbase : ∃ s, lget (preMoveState state inputs).snakes i = some s ∧ s.alive = true := by
    have h0 : lget (preMoveState state inputs).snakes i =
        some (if s0.alive then applyInput inputs i s0 else s0) := by
      show lget (dirPhase inputs state.snakes) i = _
      rw [lget_dirPhase, hg]
      rfl
    refine ⟨_, h0, ?_⟩
    rw [if_pos ha]
    unfold applyInput
    cases inputs i with
    | none => exact ha
    | some d =>
      dsimp only
      split
      · exact ha
      · exact ha
  have hA : 1 ≤ countDeathEvents i (step state inputs settings rng boosts).1 ∨
      (∃ s, lget (step state inputs settings rng boosts).1.snakes i = some s ∧ s.alive = true) := by
    unfold step postMoveState
    have h1 : 1 ≤ countDeathEvents i (movePhase settings boosts (preMoveState state inputs)) ∨
        (∃ s, lget (movePhase settings boosts (preMoveState state inputs)).snakes i = some s ∧ s.alive = true) := by
      unfold movePhase
      refine foldl_invariant _ (fun acc : GameState =>
        1 ≤ countDeathEvents i acc ∨
        (∃ s, lget acc.snakes i = some s ∧ s.alive = true)) _ ?_ _ (Or.inr hbase)
      intro acc j _ hp
      exact moveStep_alive_or_death _ _ _ _ _ hp
    have h2 : 1 ≤ countDeathEvents i (collisionPhase (movePhase settings boosts (preMoveState state inputs))) ∨
        (∃ s, lget (collisionPhase (movePhase settings boosts (preMoveState state inputs))).snakes i = some s ∧ s.alive = true) := by
      unfold collisionPhase
      refine foldl_invariant _ (fun acc : GameState =>
        1 ≤ countDeathEvents i acc ∨
        (∃ s, lget acc.snakes i = some s ∧ s.alive = true)) _ ?_ _ h1
      intro acc j _ hp
      exact collideSnake_alive_or_death _ _ _ hp
    have h3 : 1 ≤ countDeathEvents i (projectilePhase settings (collisionPhase (movePhase settings boosts (preMoveState state inputs)))) ∨
        (∃ s, lget (projectilePhase settings (collisionPhase (movePhase settings boosts (preMoveState state inputs)))).snakes i = some s ∧ s.alive = true) := by
      unfold projectilePhase
      dsimp only
      refine foldl_invariant _ (fun a : GameState × List Projectile =>
        1 ≤ countDeathEvents i a.1 ∨
        (∃ s, lget a.1.snakes i = some s ∧ s.alive = true)) _ ?_ _ h2
      intro a p _ hp
      exact stepProjectile_alive_or_death _ _ _ _ hp
    rcases h3 with hc | ⟨s, hgs, has⟩
    · exact Or.inl (le_trans hc (countDeath_mono_of_extend i (spawnFoodsAux_events _ _ _ _)))
    · right
      refine ⟨s, ?_, has⟩
      have hsp := spawnFoods_snakes settings (projectilePhase settings (collisionPhase
        (movePhase settings boosts (preMoveState state inputs)))) rng
      rw [show (spawnFoods settings (projectilePhase settings (collisionPhase
        (movePhase settings boosts (preMoveState state inputs)))) rng).1.snakes =
        (projectilePhase settings (collisionPhase
        (movePhase settings boosts (preMoveState state inputs)))).snakes from hsp]
      exact hgs
  rcases hA with hc | ⟨s, hgs, has⟩
  · exact hc
  · exfalso
    unfold aliveOf at hd
    rw [hgs] at hd
    simp [has] at hd

theorem convertSegment_eq (snakes1 : List (String × Snake)) (fs : List Food)
    (seg : Position) :
    convertSegment snakes1 fs seg =
      if !(snakes1.any fun e => e.2.alive && decide (seg ∈ e.2.body)) &&
          !(fs.any fun f => decide (f.position = seg)) then
        fs ++ [⟨seg, FoodKind.normal, NORMAL_FOOD_VALUE⟩]
      else fs := rfl

theorem convert_fold_spec (snakes1 : List (String × Snake)) (segs : List Position)
    (fs : List Food) :
    ∃ added : List Food,
      segs.foldl (convertSegment snakes1) fs = fs ++ added ∧
      added.length ≤ segs.length ∧
      ∀ f, f ∈ added → f.type = FoodKind.normal ∧ f.value = NORMAL_FOOD_VALUE ∧
        f.position ∈ segs ∧
        (∀ e, e ∈ snakes1 → e.2.alive = true → f.position ∉ e.2.body) ∧
        (∀ g, g ∈ fs → g.position ≠ f.position) := by
  induction segs generalizing fs with
  | nil => exact ⟨[], by simp, by simp, by simp⟩
  | cons seg rest ih =>
    rw [List.foldl_cons, convertSegment_eq]
    split
    · rename_i hc
      rw [Bool.and_eq_true, Bool.not_eq_true', Bool.not_eq_true'] at hc
      obtain ⟨hc1, hc2⟩ := hc
      simp only [List.any_eq_false, Bool.and_eq_true, decide_eq_true_eq, not_and] at hc1 hc2
      rcases ih (fs ++ [⟨seg, FoodKind.normal, NORMAL_FOOD_VALUE⟩]) with ⟨added, heq, hlen, hmem⟩
      refine ⟨⟨seg, FoodKind.normal, NORMAL_FOOD_VALUE⟩ :: added, ?_, ?_, ?_⟩
      · rw [heq]
        simp
      · simp only [List.length_cons]
        exact Nat.succ_le_succ hlen
      · intro f hf
        rcases List.mem_cons.mp hf with rfl | hf
        · refine ⟨rfl, rfl, List.mem_cons_self _ _, ?_, ?_⟩
          · intro e he ha
            exact hc1 e he ha
          · intro g hg
            exact hc2 g hg
        · obtain ⟨ht, hv, hp, hb, hd⟩ := hmem f hf
          exact ⟨ht, hv, List.mem_cons_of_mem _ hp, hb,
            fun g hg => hd g (List.mem_append_left _ hg)⟩
    · rcases ih fs with ⟨added, heq, hlen, hmem⟩
      refine ⟨added, heq, ?_, ?_⟩
      · simp only [List.length_cons]
        exact Nat.le_succ_of_le hlen
      · intro f hf
        obtain ⟨ht, hv, hp, hb, hd⟩ := hmem f hf
        exact ⟨ht, hv, List.mem_cons_of_mem _ hp, hb, hd⟩

theorem killSnake_spec (st : GameState) (id : String) (sn : Snake)
    (hg : lget st.snakes id = some sn) :
    lget (killSnake st id).snakes id = some { sn with alive := false } ∧
    (∀ j, j ≠ id → lget (killSnake st id).snakes j = lget st.snakes j) ∧
    (killSnake st id).events = st.events ++ [deathEvent id sn.body.headI] ∧
    (killSnake st id).projectiles = st.projectiles ∧
    ∃ added : List Food,
      (killSnake st id).foods = st.foods ++ added ∧
      added.length ≤ 3 ∧
      ∀ f, f ∈ added → f.type = FoodKind.normal ∧ f.value = NORMAL_FOOD_VALUE ∧
        f.position ∈ sn.body ∧
        (∀ e, e ∈ updateSnake id (fun s => { s with alive := false }) st.snakes →
          e.2.alive = true → f.position ∉ e.2.body) ∧
        (∀ g, g ∈ st.foods → g.position ≠ f.position) := by
  have hk : killSnake st id =
      { st with
        snakes := updateSnake id (fun s => { s with alive := false }) st.snakes,
        foods := (if min 3 (sn.body.length / 2) = 0 then sn.body
          else sn.body.drop (sn.body.length - min 3 (sn.body.length / 2))).foldl
          (convertSegment (updateSnake id (fun s => { s with alive := false }) st.snakes))
          st.foods,
        events := st.events ++ [deathEvent id sn.body.headI] } := by
    unfold killSnake
    rw [hg]
  have hlen3 : (if min 3 (sn.body.length / 2) = 0 then sn.body
      else sn.body.drop (sn.body.length - min 3 (sn.body.length / 2))).length ≤ 3 := by
    split
    · rename_i h0
      omega
    · rw [List.length_drop]
      omega
  refine ⟨?_, ?_, ?_, ?_, ?_⟩
  · rw [hk]
    show lget (updateSnake id (fun s => { s with alive := false }) st.snakes) id = _
    rw [lget_updateSnake_self, hg]
    rfl
  · intro j hj
    rw [hk]
    show lget (updateSnake id (fun s => { s with alive := false }) st.snakes) j = _
    exact lget_updateSnake_ne _ _ _ _ hj
  · rw [hk]
  · rw [hk]
  · rw [hk]
    dsimp only
    rcases convert_fold_spec (updateSnake id (fun s => { s with alive := false }) st.snakes)
      (if min 3 (sn.body.length / 2) = 0 then sn.body
        else sn.body.drop (sn.body.length - min 3 (sn.body.length / 2))) st.foods with
      ⟨added, heq, hlen, hmem⟩
    refine ⟨added, heq, le_trans hlen hlen3, ?_⟩
    intro f hf
    obtain ⟨ht, hv, hp, hb, hd⟩ := hmem f hf
    refine ⟨ht, hv, ?_, hb, hd⟩
    revert hp
    split
    · exact fun hp => hp
    · exact fun hp => List.mem_of_mem_drop hp

/-- C5 (amended): a snake alive before `step` and dead after it carries at
least one `death` event in the output — not exactly one, since a snake can be
killed twice in a tick (see the three-way head collision run).  Each single
`killSnake` call on a present snake realises the spec's shared death logic:
the snake is marked `alive = false` and every other map entry is untouched,
exactly one death event at its head position is appended, projectiles are
unchanged, and at most 3 trailing segments become value-1 normal food items at
their own body positions — each new food lies on a cell not occupied by any
snake still alive after the marking and not already holding a pre-existing
food item. -/
theorem death_handling_spec :
    (∀ (state : GameState) (inputs : InputMap) (settings : RoomSettings)
        (rng : RNG) (boosts : BoostMap) (i : String) (s0 : Snake),
      lget state.snakes i = some s0 → s0.alive = true →
      aliveOf (step state inputs settings rng boosts).1 i = some false →
      1 ≤ countDeathEvents i (step state inputs settings rng boosts).1) ∧
    (∀ (st : GameState) (id : String) (sn : Snake),
      lget st.snakes id = some sn →
      lget (killSnake st id).snakes id = some { sn with alive := false } ∧
      (∀ j, j ≠ id → lget (killSnake st id).snakes j = lget st.snakes j) ∧
      (killSnake st id).events = st.events ++ [deathEvent id sn.body.headI] ∧
      (killSnake st id).projectiles = st.projectiles ∧
      ∃ added : List Food,
        (killSnake st id).foods = st.foods ++ added ∧
        added.length ≤ 3 ∧
        ∀ f, f ∈ added → f.type = FoodKind.normal ∧ f.value = NORMAL_FOOD_VALUE ∧
          f.position ∈ sn.body ∧
          (∀ e, e ∈ updateSnake id (fun s => { s with alive := false }) st.snakes →
            e.2.alive = true → f.position ∉ e.2.body) ∧
          (∀ g, g ∈ st.foods → g.position ≠ f.position)) :=
  ⟨fun state inputs settings rng boosts i s0 hg ha hd =>
      step_death_event_on_death state inputs settings rng boosts i s0 hg ha hd,
    fun st id sn hg => killSnake_spec st id sn hg⟩

theorem death_handling_spec_witness :
    1 ≤ countDeathEvents "A"
      (step wrapEdgeState noInputs noWrapSettings (mkRNG 1) noBoosts).1 ∧
    lget (killSnake mixedState "B").snakes "B" =
      some { mkSnake "B" [⟨7, 7⟩, ⟨8, 7⟩, ⟨9, 7⟩] .left with alive := false } :=
  ⟨death_handling_spec.1 wrapEdgeState noInputs noWrapSettings (mkRNG 1) noBoosts
      "A" (mkSnake "A" [⟨0, 5⟩, ⟨1, 5⟩, ⟨2, 5⟩] .left) (by decide) (by decide) (by decide),
   (death_handling_spec.2 mixedState "B"
      (mkSnake "B" [⟨7, 7⟩, ⟨8, 7⟩, ⟨9, 7⟩] .left) (by decide)).1⟩

end ClaimC5

section ClaimC6

theorem filter_of_filter_ne (l : List Food) (nh knh : Position) (hne : knh ≠ nh) :
    (l.filter fun g => !decide (g.position = knh)).filter
      (fun g => decide (g.position = nh)) =
      l.filter (fun g => decide (g.position = nh)) := by
  induction l with
  | nil => rfl
  | cons g gs ih =>
    by_cases h1 : g.position = knh
    · have h2 : ¬g.position = nh := fun hc => hne (by rw [← h1, hc])
      simp only [List.filter_cons]
      rw [if_neg (by simp [h1]), if_neg (by simp [h2])]
      exact ih
    · by_cases h2 : g.position = nh
      · simp only [List.filter_cons]
        rw [if_pos (by simp [h1]), List.filter_cons, if_pos (by simp [h2]),
          if_pos (by simp [h2]), ih]
      · simp only [List.filter_cons]
        rw [if_pos (by simp [h1]), List.filter_cons, if_neg (by simp [h2]),
          if_neg (by simp [h2]), ih]

theorem filter_after_remove (l : List Food) (nh : Position) :
    (l.filter fun g => !decide (g.position = nh)).filter
      (fun g => decide (g.position = nh)) = [] := by
  induction l with
  | nil => rfl
  | cons g gs ih =>
    by_cases h : g.position = nh <;> simp [List.filter_cons, h, ih]

theorem moveStep_noBoost_alive (settings : RoomSettings) (acc : GameState)
    (i : String) (sn : Snake) (hg : lget acc.snakes i = some sn)
    (ha : sn.alive = true) :
    moveStep settings noBoosts acc i = (moveSnakeOnce settings i acc).1 := by
  unfold moveStep
  rw [hg]
  dsimp only
  rw [if_pos ha]
  unfold moveSnake
  dsimp only
  simp [noBoosts]

theorem moveFold_lget_notin (settings : RoomSettings) (boosts : BoostMap)
    (K : List String) :
    ∀ (acc : GameState) (j : String), j ∉ K →
      lget (K.foldl (moveStep settings boosts) acc).snakes j = lget acc.snakes j := by
  induction K with
  | nil =>
    intro acc j _
    rfl
  | cons k rest ih =>
    intro acc j hj
    rw [List.foldl_cons, ih _ j (fun h => hj (List.mem_cons_of_mem _ h))]
    exact moveStep_lget_ne settings boosts acc k j
      (fun h => hj (by rw [h]; exact List.mem_cons_self _ _))

theorem moveStep_filter_keep (settings : RoomSettings) (acc : GameState)
    (k : String) (nh : Position)
    (hk : ∀ sk, lget acc.snakes k = some sk → sk.alive = true →
      movePosition sk.body.headI sk.direction settings ≠ nh ∧
      (!settings.wrapEnabled &&
        outOfBoundsPos (movePosition sk.body.headI sk.direction settings) settings) = false) :
    (moveStep settings noBoosts acc k).foods.filter
        (fun g => decide (g.position = nh)) =
      acc.foods.filter (fun g => decide (g.position = nh)) := by
  unfold moveStep
  cases hsk : lget acc.snakes k with
  | none => rfl
  | some sk =>
    dsimp only
    by_cases hal : sk.alive = true
    · rw [if_pos hal]
      obtain ⟨hnh, hwall⟩ := hk sk hsk hal
      unfold moveSnake
      dsimp only
      simp only [noBoosts, Bool.false_and, Bool.false_eq_true, if_false]
      unfold moveSnakeOnce
      rw [hsk]
      dsimp only
      rw [if_neg (by simp [hwall])]
      dsimp only
      exact filter_of_filter_ne acc.foods nh _ hnh
    · rw [if_neg hal]

theorem moveFold_filter_keep (settings : RoomSettings) (st0 : GameState)
    (nh : Position) (K : List String) :
    ∀ acc : GameState, K.Nodup →
      (∀ j, j ∈ K → lget acc.snakes j = lget st0.snakes j) →
      (∀ j sj, j ∈ K → lget st0.snakes j = some sj → sj.alive = true →
        movePosition sj.body.headI sj.direction settings ≠ nh ∧
        (!settings.wrapEnabled &&
          outOfBoundsPos (movePosition sj.body.headI sj.direction settings) settings) = false) →
      (K.foldl (moveStep settings noBoosts) acc).foods.filter
          (fun g => decide (g.position = nh)) =
        acc.foods.filter (fun g => decide (g.position = nh)) := by
  induction K with
  | nil =>
    intro acc _ _ _
    rfl
  | cons k rest ih =>
    intro acc hnd hA hB
    have hstep := moveStep_filter_keep settings acc k nh (fun sk hsk hal =>
      hB k sk (List.mem_cons_self _ _)
        (by rw [← hA k (List.mem_cons_self _ _)]; exact hsk) hal)
    have hk_rest : k ∉ rest := (List.nodup_cons.mp hnd).1
    have hA2 : ∀ j, j ∈ rest →
        lget (moveStep settings noBoosts acc k).snakes j = lget st0.snakes j := by
      intro j hjr
      have hjk : j ≠ k := fun h => hk_rest (h ▸ hjr)
      rw [moveStep_lget_ne settings noBoosts acc k j hjk]
      exact hA j (List.mem_cons_of_mem _ hjr)
    rw [List.foldl_cons,
      ih _ (List.nodup_cons.mp hnd).2 hA2
        (fun j sj hjr => hB j sj (List.mem_cons_of_mem _ hjr))]
    exact hstep

theorem moveFold_events (settings : RoomSettings) (boosts : BoostMap)
    (K : List String) (acc : GameState) :
    ∃ t, (K.foldl (moveStep settings boosts) acc).events = acc.events ++ t := by
  refine foldl_invariant _ (fun a : GameState => ∃ t, a.events = acc.events ++ t)
    _ ?_ _ (extend_refl _)
  intro a j _ hp
  exact extend_trans hp (moveStep_events _ _ _ _)

theorem moveSnakeOnce_eat (settings : RoomSettings) (id : String)
    (st : GameState) (sn : Snake) (f : Food)
    (hg : lget st.snakes id = some sn)
    (hwall : (!settings.wrapEnabled &&
      outOfBoundsPos (movePosition sn.body.headI sn.direction settings) settings) = false)
    (hf : st.foods.filter
      (fun g => decide (g.position = movePosition sn.body.headI sn.direction settings)) = [f]) :
    (moveSnakeOnce settings id st).2 = false ∧
    lget (moveSnakeOnce settings id st).1.snakes id = some
      { sn with
        body := (movePosition sn.body.headI sn.direction settings :: sn.body) ++
          List.replicate (f.value - 1)
            ((movePosition sn.body.headI sn.direction settings :: sn.body).getLastD default),
        score := sn.score + f.value } ∧
    (moveSnakeOnce settings id st).1.foods =
      st.foods.filter
        (fun g => !decide (g.position = movePosition sn.body.headI sn.direction settings)) ∧
    (moveSnakeOnce settings id st).1.events = st.events ++ [eatEvent id f] := by
  unfold moveSnakeOnce
  rw [hg]
  dsimp only
  rw [if_neg (by simp [hwall])]
  rw [hf]
  simp only [List.isEmpty_cons]
  rw [if_neg Bool.false_ne_true]
  simp only [List.getLast?_singleton, Option.map_some', Option.getD_some,
    List.map_cons, List.map_nil]
  refine ⟨trivial, ?_, trivial, trivial⟩
  rw [lget_updateSnake_self, hg]
  rfl

/-- A single snake about to eat the one food in front of it. -/
def soloEatState : GameState :=
  ⟨[("A", mkSnake "A" [⟨5, 5⟩, ⟨4, 5⟩, ⟨3, 5⟩] .right)],
    [⟨⟨6, 5⟩, FoodKind.normal, 1⟩], [], []⟩

/-- C6 (amended): the growth law holds at the movement phase, not at the end
of the tick (a projectile hit or collision in the same tick can change the
body again, see the projectile counterexample).  If the snake map keys are
duplicate-free, boosting is off, snake `i` is alive and wall-safe, exactly
one food `f` (of value at least 1) sits on `i`'s next head cell, and no other
living snake moves onto that cell or dies at a wall this phase, then after
`movePhase` snake `i` is alive with score increased by exactly `f.value` and
body length increased by exactly `f.value`, one eat event for `f` is in the
event list, no food remains on the eaten cell, and `f` itself is gone. -/
theorem growth_law_at_movement (settings : RoomSettings) (st : GameState)
    (i : String) (sn : Snake) (f : Food)
    (hnd : (st.snakes.map Prod.fst).Nodup)
    (hg : lget st.snakes i = some sn) (ha : sn.alive = true)
    (hv : 1 ≤ f.value)
    (hwall : (!settings.wrapEnabled &&
      outOfBoundsPos (movePosition sn.body.headI sn.direction settings) settings) = false)
    (hf : st.foods.filter
      (fun g => decide (g.position = movePosition sn.body.headI sn.direction settings)) = [f])
    (hoth : ∀ j sj, j ≠ i → lget st.snakes j = some sj → sj.alive = true →
      movePosition sj.body.headI sj.direction settings ≠
        movePosition sn.body.headI sn.direction settings ∧
      (!settings.wrapEnabled &&
        outOfBoundsPos (movePosition sj.body.headI sj.direction settings) settings) = false) :
    (∃ sn2, lget (movePhase settings noBoosts st).snakes i = some sn2 ∧
      sn2.alive = true ∧ sn2.score = sn.score + f.value ∧
      sn2.body.length = sn.body.length + f.value) ∧
    eatEvent i f ∈ (movePhase settings noBoosts st).events ∧
    (movePhase settings noBoosts st).foods.filter
      (fun g => decide (g.position = movePosition sn.body.headI sn.direction settings)) = [] ∧
    f ∉ (movePhase settings noBoosts st).foods := by
  have hi : i ∈ st.snakes.map Prod.fst := lget_some_mem _ _ _ hg
  obtain ⟨K1, K2, hsplit⟩ := List.append_of_mem hi
  rw [hsplit] at hnd
  have hnd1 : K1.Nodup := (List.nodup_append.mp hnd).1
  have hndc : (i :: K2).Nodup := (List.nodup_append.mp hnd).2.1
  have hdisj : K1.Disjoint (i :: K2) := (List.nodup_append.mp hnd).2.2
  have hiK1 : i ∉ K1 := fun h => (hdisj h) (List.mem_cons_self _ _)
  have hiK2 : i ∉ K2 := (List.nodup_cons.mp hndc).1
  have hnd2 : K2.Nodup := (List.nodup_cons.mp hndc).2
  have hfold : movePhase settings noBoosts st =
      K2.foldl (moveStep settings noBoosts)
        (moveStep settings noBoosts (K1.foldl (moveStep settings noBoosts) st) i) := by
    unfold movePhase
    rw [hsplit, List.foldl_append, List.foldl_cons]
  have hg1 : lget (K1.foldl (moveStep settings noBoosts) st).snakes i = some sn := by
    rw [moveFold_lget_notin settings noBoosts K1 st i hiK1]
    exact hg
  have hB1 : ∀ j sj, j ∈ K1 → lget st.snakes j = some sj → sj.alive = true →
      movePosition sj.body.headI sj.direction settings ≠
        movePosition sn.body.headI sn.direction settings ∧
      (!settings.wrapEnabled &&
        outOfBoundsPos (movePosition sj.body.headI sj.direction settings) settings) = false :=
    fun j sj hj hgj hal => hoth j sj (fun hji => hiK1 (hji ▸ hj)) hgj hal
  have hf1 : (K1.foldl (moveStep settings noBoosts) st).foods.filter
      (fun g => decide (g.position = movePosition sn.body.headI sn.direction settings)) = [f] := by
    rw [moveFold_filter_keep settings st
      (movePosition sn.body.headI sn.direction settings) K1 st hnd1 (fun j _ => rfl) hB1]
    exact hf
  have hstep_i : moveStep settings noBoosts (K1.foldl (moveStep settings noBoosts) st) i =
      (moveSnakeOnce settings i (K1.foldl (moveStep settings noBoosts) st)).1 :=
    moveStep_noBoost_alive settings _ i sn hg1 ha
  obtain ⟨hdead, hlg2, hfoods2, hev2⟩ :=
    moveSnakeOnce_eat settings i (K1.foldl (moveStep settings noBoosts) st) sn f hg1 hwall hf1
  have hfpos : decide (f.position = movePosition sn.body.headI sn.direction settings) = true := by
    have hmf : f ∈ st.foods.filter
        (fun g => decide (g.position = movePosition sn.body.headI sn.direction settings)) := by
      rw [hf]
      exact List.mem_singleton_self f
    exact (List.mem_filter.mp hmf).2
  have hA2 : ∀ j, j ∈ K2 →
      lget (moveStep settings noBoosts (K1.foldl (moveStep settings noBoosts) st) i).snakes j =
        lget st.snakes j := by
    intro j hj2
    have hji : j ≠ i := fun h => hiK2 (h ▸ hj2)
    have hjK1 : j ∉ K1 := fun h => hdisj h (List.mem_cons_of_mem _ hj2)
    rw [moveStep_lget_ne settings noBoosts _ i j hji]
    exact moveFold_lget_notin settings noBoosts K1 st j hjK1
  have hB2 : ∀ j sj, j ∈ K2 → lget st.snakes j = some sj → sj.alive = true →
      movePosition sj.body.headI sj.direction settings ≠
        movePosition sn.body.headI sn.direction settings ∧
      (!settings.wrapEnabled &&
        outOfBoundsPos (movePosition sj.body.headI sj.direction settings) settings) = false :=
    fun j sj hj hgj hal => hoth j sj (fun hji => hiK2 (hji ▸ hj)) hgj hal
  have hfilter_out : (movePhase settings noBoosts st).foods.filter
      (fun g => decide (g.position = movePosition sn.body.headI sn.direction settings)) = [] := by
    rw [hfold, moveFold_filter_keep settings st
      (movePosition sn.body.headI sn.direction settings) K2 _ hnd2 hA2 hB2, hstep_i, hfoods2]
    exact filter_after_remove _ _
  refine ⟨?_, ?_, hfilter_out, ?_⟩
  · refine ⟨{ sn with
        body := (movePosition sn.body.headI sn.direction settings :: sn.body) ++
          List.replicate (f.value - 1)
            ((movePosition sn.body.headI sn.direction settings :: sn.body).getLastD default),
        score := sn.score + f.value }, ?_, ha, rfl, ?_⟩
    · rw [hfold, moveFold_lget_notin settings noBoosts K2 _ i hiK2, hstep_i]
      exact hlg2
    · simp only [List.length_append, List.length_cons, List.length_replicate]
      omega
  · rw [hfold]
    refine mem_of_extend (moveFold_events settings noBoosts K2 _) ?_
    rw [hstep_i]
    show eatEvent i f ∈ (moveSnakeOnce settings i (K1.foldl (moveStep settings noBoosts) st)).1.events
    rw [hev2]
    exact List.mem_append_right _ (List.mem_singleton_self _)
  · intro hmem
    have : f ∈ (movePhase settings noBoosts st).foods.filter
        (fun g => decide (g.position = movePosition sn.body.headI sn.direction settings)) :=
      List.mem_filter.mpr ⟨hmem, hfpos⟩
    rw [hfilter_out] at this
    exact List.not_mem_nil f this

theorem growth_law_at_movement_witness :
    (∃ sn2, lget (movePhase wrapSettings noBoosts soloEatState).snakes "A" = some sn2 ∧
      sn2.alive = true ∧
      sn2.score = (mkSnake "A" [⟨5, 5⟩, ⟨4, 5⟩, ⟨3, 5⟩] .right).score +
        (⟨⟨6, 5⟩, FoodKind.normal, 1⟩ : Food).value ∧
      sn2.body.length = (mkSnake "A" [⟨5, 5⟩, ⟨4, 5⟩, ⟨3, 5⟩] .right).body.length +
        (⟨⟨6, 5⟩, FoodKind.normal, 1⟩ : Food).value) ∧
    eatEvent "A" ⟨⟨6, 5⟩, FoodKind.normal, 1⟩ ∈
      (movePhase wrapSettings noBoosts soloEatState).events ∧
    (movePhase wrapSettings noBoosts soloEatState).foods.filter
      (fun g => decide (g.position =
        movePosition (mkSnake "A" [⟨5, 5⟩, ⟨4, 5⟩, ⟨3, 5⟩] .right).body.headI
          (mkSnake "A" [⟨5, 5⟩, ⟨4, 5⟩, ⟨3, 5⟩] .right).direction wrapSettings)) = [] ∧
    (⟨⟨6, 5⟩, FoodKind.normal, 1⟩ : Food) ∉
      (movePhase wrapSettings noBoosts soloEatState).foods :=
  growth_law_at_movement wrapSettings soloEatState "A"
    (mkSnake "A" [⟨5, 5⟩, ⟨4, 5⟩, ⟨3, 5⟩] .right) ⟨⟨6, 5⟩, FoodKind.normal, 1⟩
    (by decide) (by decide) (by decide) (by decide) (by decide) (by decide)
    (by
      intro j sj hj hl hal
      rw [show lget soloEatState.snakes j =
          (if "A" = j then some (mkSnake "A" [⟨5, 5⟩, ⟨4, 5⟩, ⟨3, 5⟩] Direction.right)
           else none) from rfl] at hl
      rw [if_neg (fun h => hj h.symm)] at hl
      exact Option.noConfusion hl)

end ClaimC6

section ClaimC4

instance : IsTotal LeaderboardEntry lbLe :=
  ⟨fun a b => by unfold lbLe; omega⟩

instance : IsTrans LeaderboardEntry lbLe :=
  ⟨fun a b c h1 h2 => by unfold lbLe at h1 h2 ⊢; omega⟩

/-- C4 (amended): when the count of living snakes is at most 1 after the
tick's step, the loop callback ends the game: status becomes `ended`, the
tick advances, and the broadcast leaderboard is a `lbLe`-sorted permutation
of one row per player — but the `survived` sort key is the final tick for a
player whose snake is still alive and `0` for every dead player, not the
number of ticks each player actually survived (an earlier death and a later
death both yield `0`, so dead players rank by score only; see the
counterexample run). -/
theorem game_end_on_low_alive (room : Room) (rng : RNG) (inputs : InputMap)
    (hst : room.status = RoomStatus.playing)
    (hle : aliveCount (step room.state inputs room.settings rng noBoosts).1 ≤ 1) :
    (loopTick room rng inputs).1.status = RoomStatus.ended ∧
    (loopTick room rng inputs).1.tick = room.tick + 1 ∧
    ∃ lb, (loopTick room rng inputs).2.2 = some lb ∧
      lb.Sorted lbLe ∧
      lb.Perm (room.players.map fun e =>
        match lget (step room.state inputs room.settings rng noBoosts).1.snakes e.1 with
        | some sn => ⟨e.1, e.2.name, sn.score, if sn.alive then room.tick + 1 else 0⟩
        | none => ⟨e.1, e.2.name, 0, 0⟩) := by
  have hloop : loopTick room rng inputs =
      ((endGame { room with
          state := (step room.state inputs room.settings rng noBoosts).1,
          tick := room.tick + 1 }).1,
        (step room.state inputs room.settings rng noBoosts).2,
        some (endGame { room with
          state := (step room.state inputs room.settings rng noBoosts).1,
          tick := room.tick + 1 }).2) := by
    unfold loopTick
    rw [if_pos hst]
    dsimp only
    rw [if_pos hle]
  rw [hloop]
  dsimp only [endGame, computeLeaderboard]
  refine ⟨rfl, rfl, _, rfl, List.sorted_insertionSort lbLe _, ?_⟩
  exact List.perm_insertionSort lbLe _

theorem game_end_on_low_alive_witness :
    (loopTick lbTick1.1 lbTick1.2.1 noInputs).1.status = RoomStatus.ended ∧
    (loopTick lbTick1.1 lbTick1.2.1 noInputs).1.tick = lbTick1.1.tick + 1 ∧
    ∃ lb, (loopTick lbTick1.1 lbTick1.2.1 noInputs).2.2 = some lb ∧
      lb.Sorted lbLe ∧
      lb.Perm (lbTick1.1.players.map fun e =>
        match lget (step lbTick1.1.state noInputs lbTick1.1.settings
            lbTick1.2.1 noBoosts).1.snakes e.1 with
        | some sn => ⟨e.1, e.2.name, sn.score, if sn.alive then lbTick1.1.tick + 1 else 0⟩
        | none => ⟨e.1, e.2.name, 0, 0⟩) :=
  game_end_on_low_alive lbTick1.1 lbTick1.2.1 noInputs (by decide) (by decide)

end ClaimC4

end ClaimsTwo

end SnakeGame
